import Mathlib

/-!
# Verification of the TGtoMT5 signal-processing core

Shallow embedding of `app/processing.py` (signal parsing, leg planning and
action building) together with the parts of `app/models.py` it uses.

Modelling conventions:
* Python `float` prices are modelled as exact rationals (`ℚ`); `round(x, 2)`
  is modelled as rounding to the nearest multiple of `1/100` with ties to
  even, the rule Python's `round` uses (no value in any claim sits on a tie).
* Python `None` becomes `Option.none`; Python truthiness (`x or y`,
  `if x:`) is modelled by explicit helpers (`0`, `""` and `None` are falsy).
* `datetime.utcnow()` and `hashlib.sha1` in `_make_action_id` are impure /
  cryptographic; the coarse timestamp string `dt` and the hex-digest
  function `h` are threaded as explicit parameters, so every theorem about
  action ids is universally quantified over them.
* The external collaborators (semantic-rule YAML, position registry,
  unparsed reporter) are modelled as an `Env` record of total functions,
  matching the boundary contracts in the spec; rejected-message reporting is
  returned as an `Option String` side channel instead of a logging call.
* Pydantic declares `Leg.side : Literal["BUY","SELL"]` (required): passing
  `None` raises `ValidationError` at the `Leg(...)` call. `Leg.side` is an
  `Option Side` here so the dict-sourced fallback chains of the builders can
  be written exactly as in the source, and each builder models the
  validation at its construction site: where the computed side is
  syntactically `some _` (the `or 'BUY'` fallbacks of the MGMT builders)
  construction is total, and where `None` can flow in (`build_open_action`,
  both leg loops of `build_modify_from_edit`) the builder returns
  `.error "ValidationError: Leg.side"` exactly when the source would raise.
-/

set_option maxHeartbeats 1600000
set_option maxRecDepth 8000

namespace TGtoMT5

/-! ## Python-semantics helpers -/

/-- Python `a or b` for optional integers (`0` is falsy). -/
def pyOrI : Option Int → Option Int → Option Int
  | some x, b => if x = 0 then b else some x
  | none, b => b

/-- Python `if x:` for an optional integer. -/
def truthyI : Option Int → Bool
  | some x => x ≠ 0
  | none => false

/-- Python `a or b` for optional strings (`""` is falsy). -/
def pyOrS : Option String → Option String → Option String
  | some s, b => if s = "" then b else some s
  | none, b => b

/-- Python `if s:` for an optional string: `None` and `""` are falsy;
normalizes a falsy value to `none`. -/
def pyTruthyS : Option String → Option String
  | some s => if s = "" then none else some s
  | none => none

/-- Python `s or d` for an optional string with a plain-string default. -/
def pyOrSD (o : Option String) (d : String) : String :=
  match o with
  | some s => if s = "" then d else s
  | none => d

/-- Python `q or d` for an optional rational (`0` falsy) with default. -/
def pyOrQD (o : Option ℚ) (d : ℚ) : ℚ :=
  match o with
  | some q => if q = 0 then d else q
  | none => d

/-- Python `str(x)` for an optional string: `str(None) = "None"`. -/
def pyStrOS : Option String → String
  | some s => s
  | none => "None"

/-- Python `abs` on rationals. -/
def pyAbs (q : ℚ) : ℚ := if q < 0 then -q else q

/-- Python `round(x, 2)` on the exact rational value: nearest multiple of `1/100`,
ties to even (Python's rounding rule). -/
def round2 (q : ℚ) : ℚ :=
  let n : ℤ := ⌊q * 100⌋
  let frac : ℚ := q * 100 - n
  let r : ℤ :=
    if frac < 1/2 then n
    else if 1/2 < frac then n + 1
    else if n % 2 = 0 then n else n + 1
  (r : ℚ) / 100

/-! ## Data model (`app/models.py`) -/

/-- The `Side` literal: `"BUY" | "SELL"`. -/
inductive Side where
  | BUY
  | SELL
deriving DecidableEq, Repr

/-- The `Leg` pydantic model. `side` is `Option` here: pydantic rejects `None`
at run time, which the builders model at each construction site (see
header). -/
structure Leg where
  leg_id : String
  symbol : String
  side : Option Side
  volume : ℚ
  entry : Option ℚ := none
  sl : Option ℚ := none
  tp : Option ℚ := none
  tag : Option String := none
  position_ticket : Option Int := none
  order_ticket : Option Int := none
deriving DecidableEq, Repr

instance : Inhabited Leg :=
  ⟨{ leg_id := "", symbol := "", side := none, volume := 0 }⟩

/-- The `Action` pydantic model; `venue` is the constant `"MT5"` and
`created_ts` is wall-clock noise not used by any claim, both omitted. -/
structure Action where
  action_id : String
  type : String
  legs : List Leg
  source_msg_id : Option String := none
deriving DecidableEq, Repr

instance : Inhabited Action := ⟨{ action_id := "", type := "", legs := [] }⟩

/-- The `ParseSignal` value object of `processing.py`. -/
structure ParseSignal where
  side : Option Side := none
  symbol : Option String := none
  entries : List ℚ := []
  tps : List (Option ℚ) := []
  sl : Option ℚ := none
  max_slip_pips : Option ℚ := none
  raw : String := ""
deriving DecidableEq, Repr

/-- The `Config` record: the module-level configuration constants of `processing.py`
(read from the environment there; threaded explicitly here). -/
structure Config where
  max_legs : Nat := 10
  default_leg_volume : ℚ := 1/100
  require_symbol : Bool := false
  require_price : Bool := true
  failsafe_on_unparsed : Bool := true
  enable_ignore_gate : Bool := false
  default_symbol : String := "XAUUSD"
  signal_min_text_len : Nat := 8
  chat_id_whitelist : List Int := []
  sender_whitelist : List String := []

/-- The default configuration (all environment variables unset). -/
def defaultConfig : Config := {}

/-! ## Pip helpers (`_pip_value`, `_is_same_price`) -/

/-- Python `pat in s` substring containment on characters. -/
def substr (pat : List Char) : List Char → Bool
  | [] => pat.isEmpty
  | c :: cs => pat.isPrefixOf (c :: cs) || substr pat cs

/-- Embedding of `_pip_value(symbol)`. -/
def pip_value (symbol : String) : ℚ :=
  let sym := symbol.toUpper
  if substr "JPY".data sym.data then 1/100
  else if sym.startsWith "XAU" then 1/10
  else 1/10000

/-- Embedding of `_is_same_price(a, b, symbol)`. -/
def is_same_price (a b : Option ℚ) (symbol : String) : Bool :=
  match a, b with
  | some a, some b => pyAbs (a - b) ≤ pip_value symbol * 1
  | _, _ => false

/-! ## TP block construction (`_tp_block_from_list`, `_tps_for_legs`) -/

/-- Embedding of `_tp_block_from_list(tp_values, has_open)`: first 4 numeric TPs, padded
by repeating the last value (all-`None` when empty), 4th slot forced to
`None` when `has_open`. -/
def tp_block_from_list (tp_values : List (Option ℚ)) (has_open : Bool) :
    List (Option ℚ) :=
  let nums := tp_values.filterMap id
  let blk : List (Option ℚ) := (nums.take 4).map some
  let blk := blk ++ List.replicate (4 - blk.length) (blk.getLast?.getD none)
  let blk := if has_open then blk.set 3 none else blk
  blk.take 4

/-- The inner `block4` of `_tps_for_legs` (same padding; in the empty case
the Python conditional `None if has_open else None` is `None` either way). -/
def block4 (vals : List ℚ) (has_open : Bool) : List (Option ℚ) :=
  if vals = [] then [none, none, none, none]
  else
    let blk : List (Option ℚ) := (vals.take 4).map some
    let blk := blk ++ List.replicate (4 - blk.length) (blk.getLast?.getD none)
    if has_open then blk.set 3 none else blk

/-- Embedding of `_tps_for_legs(ps, legs_count)`: the generic TP distribution fallback. -/
def tps_for_legs (ps : ParseSignal) (legs_count : Nat) : List (Option ℚ) :=
  if legs_count = 0 then []
  else
    let numeric := ps.tps.filterMap id
    let has_open := ps.tps.any (· = none)
    if 2 ≤ ps.entries.length ∧ 8 ≤ legs_count then
      let blk := block4 numeric has_open
      let out := (blk ++ blk).take legs_count
      out ++ List.replicate (legs_count - out.length) (blk.getLast?.getD none)
    else if ps.entries.length = 1 ∧ 4 ≤ legs_count then
      let blk := block4 numeric has_open
      let out := blk.take legs_count
      out ++ List.replicate (legs_count - out.length) (blk.getLast?.getD none)
    else
      -- positional mapping: pos 0 → numeric[0], pos p → numeric[p-1],
      -- clamped to the last numeric; final slot forced open if has_open
      let fill_upto := if has_open then legs_count - 1 else legs_count
      (List.range legs_count).map fun pos =>
        if pos < fill_upto then
          if numeric = [] then none
          else
            let idx := if pos = 0 then 0 else pos - 1
            some (numeric.getD (min idx (numeric.length - 1)) 0)
        else none

/-! ## The leg planner (`plan_legs`) -/

/-- The range-direction validation inside `plan_legs`
(`if ps.side == 'BUY': ... elif ps.side == 'SELL': ...`; a missing side
skips validation). `ValueError` is modelled as `Except.error`. -/
def validate_range (ps : ParseSignal) (worst better : ℚ) : Except String Unit :=
  match ps.side with
  | some Side.BUY =>
    if worst ≤ better then
      .error "Invalid BUY range: first price must be higher than second"
    else .ok ()
  | some Side.SELL =>
    if better ≤ worst then
      .error "Invalid SELL range: first price must be lower than second"
    else .ok ()
  | none => .ok ()

/-- The entry-planning part of `plan_legs`: per-leg entry prices and the
effective leg count. -/
def plan_entries (ps : ParseSignal) (legs_count : Nat) :
    Except String (List (Option ℚ) × Nat) :=
  match ps.entries with
  | [e] => .ok (List.replicate 4 (some e), 4)
  | e0 :: e1 :: _ =>
    let worst := e0
    let better := e1
    match validate_range ps worst better with
    | .error msg => .error msg
    | .ok () =>
      let step := pyAbs (better - worst) / 3
      let entry_points := (List.range 4).map fun i =>
        round2 (match ps.side with
          | some Side.BUY => worst - i * step
          | some Side.SELL => worst + i * step
          | none => if worst < better then worst + i * step
                    else worst - i * step)
      .ok ((List.range 16).map (fun i => some (entry_points.getD (i / 4) 0)), 16)
  | [] => .ok (List.replicate legs_count (none : Option ℚ), legs_count)

/-- Embedding of `plan_legs(ps, legs_count)`. Returns `(entries, tps, effective_legs)`. -/
def plan_legs (cfg : Config) (ps : ParseSignal) (legs_count : Nat) :
    Except String (List (Option ℚ) × List (Option ℚ) × Nat) :=
  match plan_entries ps legs_count with
  | .error msg => .error msg
  | .ok (entries, effective) =>
    let has_open := ps.tps.any (· = none)
    let symbol_for_pips := pyOrSD ps.symbol cfg.default_symbol
    let tp_list :=
      if effective = 16 ∧ entries ≠ [] ∧ entries.headD none ≠ none then
        let blk := tp_block_from_list ps.tps has_open
        ((List.replicate 4 blk).flatten).take effective
      else if effective = 8 ∧ entries ≠ [] ∧ entries.headD none ≠ none
          ∧ 4 < entries.length ∧ entries.getD 4 none ≠ none
          ∧ ¬ is_same_price (entries.headD none) (entries.getD 4 none) symbol_for_pips then
        let blk := tp_block_from_list ps.tps has_open
        ((List.replicate ((effective + 3) / 4) blk).flatten).take effective
      else if effective = 4 then
        tp_block_from_list ps.tps has_open
      else
        tps_for_legs ps effective
    .ok (entries, tp_list, effective)


/-! ## Text normalizer and field extractor (`_preclean_text`, `parse_signal_text`)

The regexes of `processing.py` are hand-translated into character-list
scanners with the same semantics (word boundaries `\b`, `\s`, multiline `^`,
greedy numbers with the only feasible backtracking steps). ASCII whitespace
and word characters are modelled; the claims' inputs are ASCII. -/

/-- Regex class `\s` (ASCII). -/
def isWS (c : Char) : Bool :=
  c = ' ' || c = '\t' || c = '\n' || c = '\r' || c = '\x0b' || c = '\x0c'

/-- Regex class `\w` (ASCII): letters, digits, underscore. -/
def isWordChar (c : Char) : Bool :=
  c.isAlpha || c.isDigit || c = '_'

/-- Python `str.strip()` (ASCII whitespace). -/
def pstrip (cs : List Char) : List Char :=
  ((cs.dropWhile isWS).reverse.dropWhile isWS).reverse

/-- Embedding of `_preclean_text`: drop zero-width characters and the emoji block
U+1F300–U+1FAFF, keep everything else (whitespace included). -/
def preclean_text (cs : List Char) : List Char :=
  cs.filter fun c =>
    ¬ (c.toNat = 0x200B || c.toNat = 0x200C || c.toNat = 0x200D
       || c.toNat = 0xFEFF
       || (0x1F300 ≤ c.toNat && c.toNat ≤ 0x1FAFF))

/-- Case-insensitive (ASCII) match of a keyword at the head; returns the
rest on success. -/
def matchCI : List Char → List Char → Option (List Char)
  | [], cs => some cs
  | _ :: _, [] => none
  | k :: ks, c :: cs => if k.toUpper = c.toUpper then matchCI ks cs else none

/-- Leading digit run. -/
def takeDigits (cs : List Char) : List Char × List Char :=
  match cs with
  | c :: rest =>
      if c.isDigit then
        let (d, r) := takeDigits rest
        (c :: d, r)
      else ([], cs)
  | [] => ([], [])

/-- Numeric value of a digit run. -/
def natOfDigits (ds : List Char) : Nat :=
  ds.foldl (fun n c => 10 * n + (c.toNat - 48)) 0

/-- Value of `ip.fp`. -/
def qOfParts (ip fp : List Char) : ℚ :=
  (natOfDigits ip : ℚ) + (natOfDigits fp : ℚ) / ((10 : ℚ) ^ fp.length)

/-- Regex `\d+(?:\.\d+)?` at the head (greedy, no boundary requirement after):
returns the value and the rest. -/
def scanNum (cs : List Char) : Option (ℚ × List Char) :=
  match takeDigits cs with
  | ([], _) => none
  | (ip, rest) =>
    match rest with
    | '.' :: r2 =>
        match takeDigits r2 with
        | ([], _) => some ((natOfDigits ip : ℚ), rest)
        | (fp, r3) => some (qOfParts ip fp, r3)
    | _ => some ((natOfDigits ip : ℚ), rest)

/-- Regex boundary `\b` at the junction to the given rest: next char absent or non-word. -/
def boundaryAfter : List Char → Bool
  | [] => true
  | c :: _ => ¬ isWordChar c

/-- Regex `\d+(?:\.\d+)?\b` at the head. The only backtracking step that can ever
succeed is dropping the fractional part (a shorter digit run is always
followed by a digit, i.e. a word character). -/
def scanNumB (cs : List Char) : Option (ℚ × List Char) :=
  match takeDigits cs with
  | ([], _) => none
  | (ip, rest) =>
    let intOnly : Option (ℚ × List Char) :=
      if boundaryAfter rest then some ((natOfDigits ip : ℚ), rest) else none
    match rest with
    | '.' :: r2 =>
        match takeDigits r2 with
        | ([], _) => intOnly
        | (fp, r3) => if boundaryAfter r3 then some (qOfParts ip fp, r3) else intOnly
    | _ => intOnly

/-- Regex `_SIDE_RE = \b(BUY|SELL)\b` (case-insensitive, first match). The `Bool`
records whether the previous character was a word character. -/
def find_side_aux : Bool → List Char → Option Side
  | _, [] => none
  | prevWord, c :: cs =>
    (if ¬ prevWord then
      (match matchCI "BUY".data (c :: cs) with
       | some rest => if boundaryAfter rest then some Side.BUY else none
       | none => none) <|>
      (match matchCI "SELL".data (c :: cs) with
       | some rest => if boundaryAfter rest then some Side.SELL else none
       | none => none)
     else none) <|>
    find_side_aux (isWordChar c) cs

def find_side (cs : List Char) : Option Side := find_side_aux false cs

/-- Matches one line against `ENTRY_RE` (anchored at line start):
`^\s*(?:BUY|SELL)\s*@\s*(\d+(?:\.\d+)?)(?:\s*/\s*(\d+(?:\.\d+)?))?`. -/
def match_entry_line (cs : List Char) : Option (List ℚ) :=
  let cs := cs.dropWhile isWS
  match (matchCI "BUY".data cs) <|> (matchCI "SELL".data cs) with
  | none => none
  | some rest =>
    match rest.dropWhile isWS with
    | '@' :: r2 =>
        match scanNum (r2.dropWhile isWS) with
        | none => none
        | some (e1, r3) =>
            match r3.dropWhile isWS with
            | '/' :: r5 =>
                match scanNum (r5.dropWhile isWS) with
                | some (e2, _) => some [e1, e2]
                | none => some [e1]
            | _ => some [e1]
    | _ => none

/-- Split on `'\n'` (the anchors of `re.M`). -/
def splitLines (cs : List Char) : List (List Char) :=
  match cs with
  | [] => [[]]
  | '\n' :: rest => [] :: splitLines rest
  | c :: rest =>
    match splitLines rest with
    | l :: ls => (c :: l) :: ls
    | [] => [[c]]

/-- Embedding of `ENTRY_RE.search(s)` (first matching line wins). -/
def find_entries (cs : List Char) : List ℚ :=
  ((splitLines cs).filterMap match_entry_line).headD []

/-- Matches one attempt of `TP_LINE_RE = \b(TP)\s+(OPEN|\d+(?:\.\d+)?)\b` at the
head; returns the captured value and the rest after the match. -/
def match_tp_at (cs : List Char) : Option (Option ℚ × List Char) :=
  match matchCI "TP".data cs with
  | none => none
  | some rest =>
    let ws := rest.takeWhile isWS
    if ws = [] then none
    else
      let r2 := rest.dropWhile isWS
      match matchCI "OPEN".data r2 with
      | some r3 => if boundaryAfter r3 then some (none, r3) else
          match scanNumB r2 with
          | some (v, r4) => some (some v, r4)
          | none => none
      | none =>
          match scanNumB r2 with
          | some (v, r4) => some (some v, r4)
          | none => none

/-- Embedding of `TP_LINE_RE.finditer` (all non-overlapping matches, left to right).
Fuel decreases every step; a match consumes at least one character. -/
def find_tps_aux : Nat → Bool → List Char → List (Option ℚ)
  | 0, _, _ => []
  | _ + 1, _, [] => []
  | fuel + 1, prevWord, c :: cs =>
    match (if ¬ prevWord then match_tp_at (c :: cs) else none) with
    | some (v, rest) => v :: find_tps_aux fuel true rest
    | none => find_tps_aux fuel (isWordChar c) cs

def find_tps (cs : List Char) : List (Option ℚ) :=
  find_tps_aux (cs.length + 1) false cs

/-- Regex `SL_RE = \bSL\s+(\d+(?:\.\d+)?)\b` (first match). -/
def find_sl_aux : Bool → List Char → Option ℚ
  | _, [] => none
  | prevWord, c :: cs =>
    (if ¬ prevWord then
      match matchCI "SL".data (c :: cs) with
      | some rest =>
          let ws := rest.takeWhile isWS
          if ws = [] then none
          else (scanNumB (rest.dropWhile isWS)).map (·.1)
      | none => none
     else none) <|>
    find_sl_aux (isWordChar c) cs

def find_sl (cs : List Char) : Option ℚ := find_sl_aux false cs

/-- Matches one line against `_SYMBOL_RE = ^\s*([A-Z]{3,10}\d{0,2})\s*$`. -/
def match_symbol_line (cs : List Char) : Option String :=
  let cs := cs.dropWhile isWS
  let letters := cs.takeWhile (fun c => c.isUpper)
  let rest := cs.dropWhile (fun c => c.isUpper)
  let digits := rest.takeWhile (fun c => c.isDigit)
  let rest2 := rest.dropWhile (fun c => c.isDigit)
  if 3 ≤ letters.length ∧ letters.length ≤ 10 ∧ digits.length ≤ 2
      ∧ rest2.dropWhile isWS = [] then
    some (String.mk (letters ++ digits))
  else none

/-- Reserved tokens excluded from symbol candidates. -/
def reservedSymbols : List String :=
  ["TP", "SL", "BUY", "SELL", "TP1", "TP2", "TP3", "TP4", "TP5"]

/-- Preferred known instruments. -/
def preferredSymbols : List String :=
  ["XAUUSD", "XAGUSD", "EURUSD", "GBPUSD", "USDJPY", "US30", "GER40"]

/-- The symbol-selection block of `parse_signal_text`. -/
def find_symbol (cs : List Char) : Option String :=
  let cand := (splitLines cs).filterMap match_symbol_line
  if cand = [] then none
  else
    let cand := cand.filter (fun c => ¬ reservedSymbols.contains c.toUpper)
    let preferred := cand.filter (fun c => preferredSymbols.contains c.toUpper)
    match cand with
    | [] => none
    | c0 :: _ =>
      match preferred with
      | p0 :: _ => some p0.toUpper
      | [] => some c0.toUpper

/-- Continuation of `SLIP_RE` after its keyword alternation:
`\s*[:=]?\s*(\d+(?:\.\d+)?)` (the trailing optional unit never affects the
captured group). -/
def slip_tail (cs : List Char) : Option ℚ :=
  let r := cs.dropWhile isWS
  let r := match r with
    | ':' :: r2 => r2.dropWhile isWS
    | '=' :: r2 => r2.dropWhile isWS
    | _ => r
  (scanNum r).map (·.1)

/-- Regex `max\s*slip` after the keyword `max`. -/
def max_slip_kw (cs : List Char) : Option (List Char) :=
  match matchCI "MAX".data cs with
  | some r => matchCI "SLIP".data (r.dropWhile isWS)
  | none => none

/-- Regex `SLIP_RE` at one position: alternation `slip|slippage|max\s*slip`, each
followed by the numeric tail (the regex backtracks into the next
alternative when the tail fails). -/
def match_slip_at (cs : List Char) : Option ℚ :=
  (match matchCI "SLIP".data cs with
   | some r =>
      (match matchCI "PAGE".data r with
       | some r2 => slip_tail r2
       | none => none) <|> slip_tail r
   | none => none) <|>
  (match max_slip_kw cs with
   | some r => slip_tail r
   | none => none)

/-- First `SLIP_RE` match position (the regex alternation order between
`slip` and `slippage` is immaterial: when `slippage` matches, the plain
`slip` branch's numeric tail necessarily fails on the letter `p`). -/
def find_slip_aux : Bool → List Char → Option ℚ
  | _, [] => none
  | prevWord, c :: cs =>
    (if ¬ prevWord then match_slip_at (c :: cs) else none) <|>
    find_slip_aux (isWordChar c) cs

/-- Regex `WORSE_RE` at one position: `\b(?:worse(?:\s*pips?)?)\s*[:=]?\s*(num)`. -/
def match_worse_at (cs : List Char) : Option ℚ :=
  match matchCI "WORSE".data cs with
  | none => none
  | some r =>
    (match matchCI "PIP".data (r.dropWhile isWS) with
     | some r2 =>
        (match r2 with
         | 's' :: r3 => slip_tail r3
         | 'S' :: r3 => slip_tail r3
         | _ => none) <|> slip_tail r2
     | none => none) <|> slip_tail r

def find_worse_aux : Bool → List Char → Option ℚ
  | _, [] => none
  | prevWord, c :: cs =>
    (if ¬ prevWord then match_worse_at (c :: cs) else none) <|>
    find_worse_aux (isWordChar c) cs

/-- The `max_slip` extraction: first `SLIP_RE`, then `WORSE_RE`. -/
def find_max_slip (cs : List Char) : Option ℚ :=
  (find_slip_aux false cs) <|> (find_worse_aux false cs)

/-- Embedding of `parse_signal_text(text)`. -/
def parse_signal_text (text : String) : ParseSignal :=
  let raw := text
  let s := pstrip (preclean_text raw.data)
  { side := find_side s
    symbol := find_symbol s
    entries := find_entries s
    tps := find_tps s
    sl := find_sl s
    max_slip_pips := find_max_slip s
    raw := raw }

/-! ## Identifiers and the OPEN builder
(`_client_id_for_message`, `_make_leg_id`, `_make_action_id`,
`build_open_action`) -/

/-- Character class `[A-Za-z0-9_]` — the characters `re.sub('[^A-Za-z0-9_]+', '_', ...)`
keeps. -/
def isIdChar (c : Char) : Bool := c.isAlpha || c.isDigit || c = '_'

/-- Replace each maximal run of non-id characters by one `'_'`
(`re.sub('[^A-Za-z0-9_]+', '_', s)`); the `Bool` tracks being inside a
run. -/
def subNonIdRuns : Bool → List Char → List Char
  | _, [] => []
  | inRun, c :: cs =>
    if isIdChar c then c :: subNonIdRuns false cs
    else if inRun then subNonIdRuns true cs
    else '_' :: subNonIdRuns true cs

/-- Embedding of `_client_id_for_message(symbol, source_msg_id)`. -/
def client_id_for_message (symbol source_msg_id : String) : String :=
  String.mk (subNonIdRuns false (pstrip (symbol ++ "_" ++ source_msg_id).data))

/-- Embedding of `_make_leg_id(client_id, leg_no)`. -/
def make_leg_id (client_id : String) (leg_no : Nat) : String :=
  client_id ++ "#" ++ toString leg_no

/-- The per-leg tuple `(l.symbol, l.side, l.leg_id, l.tp, l.sl, l.entry)`
serialized into `_make_action_id`'s blob. -/
def leg_content (l : Leg) :
    String × Option Side × String × Option ℚ × Option ℚ × Option ℚ :=
  (l.symbol, l.side, l.leg_id, l.tp, l.sl, l.entry)

def encSide : Option Side → String
  | some Side.BUY => "BUY"
  | some Side.SELL => "SELL"
  | none => "None"

def encQ : Option ℚ → String
  | some q => toString q.num ++ "/" ++ toString q.den
  | none => "None"

/-- Serialization of one leg tuple inside the blob. The exact rendering of
numbers differs from Python's `repr`; every claim about `_make_action_id`
concerns only which leg fields the blob depends on. -/
def enc_content :
    String × Option Side × String × Option ℚ × Option ℚ × Option ℚ → String
  | (sym, side, lid, tp, sl, entry) =>
    "(" ++ sym ++ ", " ++ encSide side ++ ", " ++ lid ++ ", "
      ++ encQ tp ++ ", " ++ encQ sl ++ ", " ++ encQ entry ++ ")"

def enc_leg_content (l : Leg) : String := enc_content (leg_content l)

/-- The f-string
`f'{action_type}|{source_msg_id}|{[(l.symbol, l.side, l.leg_id, l.tp, l.sl, l.entry) for l in legs]}'`. -/
def make_action_blob (action_type source_msg_id : String) (legs : List Leg) :
    String :=
  action_type ++ "|" ++ source_msg_id ++ "|["
    ++ String.intercalate ", " (legs.map enc_leg_content) ++ "]"

/-- Embedding of `_make_action_id(action_type, source_msg_id, legs)`. `h` stands for the
truncated SHA-1 hex digest (a fixed pure function) and `dt` for the coarse
UTC timestamp `utcnow().strftime('%Y%m%d-%H%M%S')`. -/
def make_action_id (h : String → String) (dt : String)
    (action_type source_msg_id : String) (legs : List Leg) : String :=
  action_type ++ "-" ++ dt ++ "-" ++ h (make_action_blob action_type source_msg_id legs)

/-- Embedding of `build_open_action(ps, source_msg_id, legs_count, leg_volume)`. -/
def build_open_action (cfg : Config) (h : String → String) (dt : String)
    (ps : ParseSignal) (source_msg_id : String) (legs_count : Nat)
    (leg_volume : ℚ) : Except String Action :=
  let side := ps.side
  let symbol := (pyOrSD ps.symbol cfg.default_symbol).toUpper
  match plan_legs cfg ps legs_count with
  | .error msg => .error msg
  | .ok (entries, tp_list, effective_legs) =>
    -- pydantic raises ValidationError at the first `Leg(side=None)`
    -- construction of the loop; every iteration passes `side = ps.side`
    if effective_legs ≠ 0 ∧ side = none then
      .error "ValidationError: Leg.side"
    else
      let client_id := client_id_for_message symbol source_msg_id
      let legs := (List.range effective_legs).map fun i =>
        { leg_id := make_leg_id client_id (i + 1)
          symbol := symbol
          side := side
          volume := leg_volume
          entry := entries.getD i none
          sl := ps.sl
          tp := tp_list.getD i none
          tag := some (make_leg_id client_id (i + 1)) : Leg }
      .ok { action_id := make_action_id h dt "OPEN" source_msg_id legs
            type := "OPEN"
            legs := legs
            source_msg_id := some source_msg_id }

/-- The invalid-range condition shared by `plan_legs`'s raise, the early
gate of `build_actions_from_message` (lines 901–915) and
`_reason_for_unparsed`: side present, at least two entries, direction
invariant violated. -/
def invalid_range_check (ps : ParseSignal) : Bool :=
  match ps.side, ps.entries with
  | some s, e0 :: e1 :: _ =>
    (s = Side.BUY && decide (e0 ≤ e1)) || (s = Side.SELL && decide (e1 ≤ e0))
  | _, _ => false

/-- The clamp `legs_count = max(1, min(int(legs_count), MAX_LEGS))` in
`build_actions_from_message`. -/
def clamp_legs_count (cfg : Config) (legs_count : Nat) : Nat :=
  max 1 (min legs_count cfg.max_legs)

/-! ## Claims C1, C2, C3, C5, C10 -/

/-- The end-to-end example text of claim C1. -/
def c1Text : String :=
  "BUY @ 3354/3350\nTP 3357\nTP 3361\nTP 3366\nTP OPEN\nSL 3349"

/-- Claim C1. For `'BUY @ 3354/3350'` with TPs `3357, 3361, 3366, OPEN` and
`SL 3349`, the pipeline `parse_signal_text` → `plan_legs` →
`build_open_action` yields exactly one OPEN action with 16 legs: entries
3354.00 / 3352.67 / 3351.33 / 3350.00 in consecutive 4-leg groups
(step `(3354−3350)/3` rounded to 2 decimals), SL 3349 on every leg, and TP
pattern `[3357, 3361, 3366, None]` on every 4-leg group. -/
theorem claim_C1 (h : String → String) (dt smid : String) (legs_count : Nat)
    (leg_volume : ℚ) :
    ∃ act : Action,
      build_open_action defaultConfig h dt (parse_signal_text c1Text) smid
          legs_count leg_volume = .ok act
      ∧ act.type = "OPEN"
      ∧ act.legs.length = 16
      ∧ act.legs.map (·.entry) =
          List.replicate 4 (some (3354 : ℚ)) ++ List.replicate 4 (some 3352.67)
            ++ List.replicate 4 (some 3351.33) ++ List.replicate 4 (some 3350)
      ∧ act.legs.map (·.sl) = List.replicate 16 (some (3349 : ℚ))
      ∧ act.legs.map (·.tp) =
          (List.replicate 4 [some (3357 : ℚ), some 3361, some 3366, none]).flatten := by
  with_unfolding_all exact ⟨_, rfl, rfl, rfl, rfl, rfl, rfl⟩

/-- Helper: the TP block always has exactly 4 slots. -/
theorem tp_block_from_list_length (tps : List (Option ℚ)) (b : Bool) :
    (tp_block_from_list tps b).length = 4 := by
  unfold tp_block_from_list
  split <;> simp

/-- Helper: when the OPEN sentinel was parsed, slot 4 of the TP block is
`None`. -/
theorem tp_block_getD3 (tps : List (Option ℚ)) :
    (tp_block_from_list tps true).getD 3 none = none := by
  unfold tp_block_from_list
  rcases tps.filterMap id with _ | ⟨a, _ | ⟨b, _ | ⟨c, _ | ⟨d, l⟩⟩⟩⟩ <;> simp

/-- Claim C2. Leg-count determinism of `plan_legs`: 0 parsed entries give
`effective = legs_count` (the count `build_actions_from_message` passes
after clamping, and the clamp is bounded by the configured maximum);
1 entry gives `effective = 4` with every leg at that entry price; a valid
2-entry range gives `effective = 16`. -/
theorem claim_C2 (cfg : Config) (ps : ParseSignal) (n : Nat) :
    (ps.entries = [] →
      ∃ ts, plan_legs cfg ps n = .ok (List.replicate n none, ts, n))
    ∧ (∀ e, ps.entries = [e] →
      ∃ ts, plan_legs cfg ps n = .ok (List.replicate 4 (some e), ts, 4))
    ∧ (∀ a b rest, ps.entries = a :: b :: rest → invalid_range_check ps = false →
      ∃ es ts, plan_legs cfg ps n = .ok (es, ts, 16))
    ∧ (1 ≤ cfg.max_legs → clamp_legs_count cfg n ≤ cfg.max_legs) := by
  refine ⟨?_, ?_, ?_, ?_⟩
  · intro hent
    simp only [plan_legs, plan_entries, hent]
    exact ⟨_, rfl⟩
  · intro e hent
    simp only [plan_legs, plan_entries, hent]
    exact ⟨_, rfl⟩
  · intro a b rest hent hchk
    rcases hside : ps.side with _ | s
    · simp only [plan_legs, plan_entries, validate_range, hent, hside]
      exact ⟨_, _, rfl⟩
    · cases s
      · have hab : ¬ (a ≤ b) := by
          simp [invalid_range_check, hent, hside] at hchk
          exact not_le.mpr hchk
        simp only [plan_legs, plan_entries, validate_range, hent, hside]
        rw [if_neg hab]
        exact ⟨_, _, rfl⟩
      · have hab : ¬ (b ≤ a) := by
          simp [invalid_range_check, hent, hside] at hchk
          exact not_le.mpr hchk
        simp only [plan_legs, plan_entries, validate_range, hent, hside]
        rw [if_neg hab]
        exact ⟨_, _, rfl⟩
  · intro hmax
    simp only [clamp_legs_count]
    omega

/-- Witness for C2 at concrete inputs. -/
theorem claim_C2_witness :
    (∃ ts, plan_legs defaultConfig { entries := [] } 5 =
        .ok (List.replicate 5 none, ts, 5))
    ∧ (∃ ts, plan_legs defaultConfig { entries := [(3354 : ℚ)] } 5 =
        .ok (List.replicate 4 (some (3354 : ℚ)), ts, 4))
    ∧ (∃ es ts, plan_legs defaultConfig
          { side := some Side.BUY, entries := [(3354 : ℚ), 3350] } 5 =
        .ok (es, ts, 16))
    ∧ clamp_legs_count defaultConfig 5 ≤ defaultConfig.max_legs := by
  refine ⟨?_, ?_, ?_, ?_⟩
  · exact (claim_C2 defaultConfig { entries := [] } 5).1 rfl
  · exact (claim_C2 defaultConfig { entries := [(3354 : ℚ)] } 5).2.1 3354 rfl
  · exact (claim_C2 defaultConfig
      { side := some Side.BUY, entries := [(3354 : ℚ), 3350] } 5).2.2.1 3354 3350 []
      rfl (by with_unfolding_all decide)
  · exact (claim_C2 defaultConfig { entries := [] } 5).2.2.2 (by decide)

/-- Claim C3. The range invariant is a hard validation error: for `side=BUY`
with `entries=[a, b, ...]` and `a ≤ b`, `plan_legs` raises (returns a
domain error, no silent reordering); symmetrically for `SELL` with
`a ≥ b`. -/
theorem claim_C3 (cfg : Config) (ps : ParseSignal) (n : Nat) (a b : ℚ)
    (rest : List ℚ) (hent : ps.entries = a :: b :: rest) :
    (ps.side = some Side.BUY → a ≤ b → ∃ msg, plan_legs cfg ps n = .error msg)
    ∧ (ps.side = some Side.SELL → b ≤ a → ∃ msg, plan_legs cfg ps n = .error msg) := by
  constructor
  · intro hside hab
    simp only [plan_legs, plan_entries, validate_range, hent, hside]
    rw [if_pos hab]
    exact ⟨_, rfl⟩
  · intro hside hab
    simp only [plan_legs, plan_entries, validate_range, hent, hside]
    rw [if_pos hab]
    exact ⟨_, rfl⟩

/-- Witness for C3 at concrete inputs. -/
theorem claim_C3_witness :
    (∃ msg, plan_legs defaultConfig
        { side := some Side.BUY, entries := [(3350 : ℚ), 3354] } 5 = .error msg)
    ∧ (∃ msg, plan_legs defaultConfig
        { side := some Side.SELL, entries := [(3354 : ℚ), 3350] } 5 = .error msg) := by
  constructor
  · exact (claim_C3 defaultConfig { side := some Side.BUY, entries := [(3350 : ℚ), 3354] }
      5 3350 3354 [] rfl).1 rfl (by with_unfolding_all decide)
  · exact (claim_C3 defaultConfig { side := some Side.SELL, entries := [(3354 : ℚ), 3350] }
      5 3354 3350 [] rfl).2 rfl (by with_unfolding_all decide)

/-- Claim C5. The 4-slot TP block: its 4th slot is forced to `None` whenever
the parsed TPs contain the OPEN sentinel; with parsed TPs
`[3480, 3485, 3490, OPEN]` the single-entry case yields exactly
`[3480, 3485, 3490, None]`; the 16-leg range case repeats the identical
4-element block four times, so all four 4-leg groups carry the same
block. -/
theorem claim_C5 (cfg : Config) (ps : ParseSignal) (n : Nat) :
    (ps.tps.any (· = none) = true →
      (tp_block_from_list ps.tps (ps.tps.any (· = none))).getD 3 none = none)
    ∧ (∀ e, ps.entries = [e] →
        ps.tps = [some 3480, some 3485, some 3490, none] →
        plan_legs cfg ps n =
          .ok (List.replicate 4 (some e),
               [some 3480, some 3485, some 3490, none], 4))
    ∧ (∀ a b rest, ps.entries = a :: b :: rest → invalid_range_check ps = false →
        ∃ es, plan_legs cfg ps n =
          .ok (es,
            (List.replicate 4
              (tp_block_from_list ps.tps (ps.tps.any (· = none)))).flatten, 16))
    ∧ (∀ a b rest, ps.entries = a :: b :: rest → invalid_range_check ps = false →
        ps.tps = [some 3480, some 3485, some 3490, none] →
        ∃ es ts, plan_legs cfg ps n = .ok (es, ts, 16)
          ∧ ts.take 4 = [some 3480, some 3485, some 3490, none]
          ∧ (ts.drop 4).take 4 = ts.take 4
          ∧ (ts.drop 8).take 4 = ts.take 4
          ∧ ts.drop 12 = ts.take 4) := by
  have hflat : ∀ (blk : List (Option ℚ)), blk.length = 4 →
      ((List.replicate 4 blk).flatten).take 16 = (List.replicate 4 blk).flatten := by
    intro blk hb
    apply List.take_of_length_le
    simp [hb]
  refine ⟨?_, ?_, ?_, ?_⟩
  · intro h
    rw [h]
    exact tp_block_getD3 ps.tps
  · intro e hent htps
    simp only [plan_legs, plan_entries, hent, htps]
    rfl
  · intro a b rest hent hchk
    rcases hside : ps.side with _ | s
    · simp only [plan_legs, plan_entries, validate_range, hent, hside]
      rw [if_pos ⟨by trivial, by intro h; exact List.noConfusion h,
        by intro h; exact Option.noConfusion h⟩]
      rw [hflat _ (tp_block_from_list_length _ _)]
      exact ⟨_, rfl⟩
    · cases s
      · have hab : ¬ (a ≤ b) := by
          simp [invalid_range_check, hent, hside] at hchk
          exact not_le.mpr hchk
        simp only [plan_legs, plan_entries, validate_range, hent, hside]
        rw [if_neg hab]
        dsimp only
        rw [if_pos ⟨by trivial, by intro h; exact List.noConfusion h,
          by intro h; exact Option.noConfusion h⟩]
        rw [hflat _ (tp_block_from_list_length _ _)]
        exact ⟨_, rfl⟩
      · have hab : ¬ (b ≤ a) := by
          simp [invalid_range_check, hent, hside] at hchk
          exact not_le.mpr hchk
        simp only [plan_legs, plan_entries, validate_range, hent, hside]
        rw [if_neg hab]
        dsimp only
        rw [if_pos ⟨by trivial, by intro h; exact List.noConfusion h,
          by intro h; exact Option.noConfusion h⟩]
        rw [hflat _ (tp_block_from_list_length _ _)]
        exact ⟨_, rfl⟩
  · intro a b rest hent hchk htps
    rcases hside : ps.side with _ | s
    · simp only [plan_legs, plan_entries, validate_range, hent, hside, htps]
      exact ⟨_, _, rfl, rfl, rfl, rfl, rfl⟩
    · cases s
      · have hab : ¬ (a ≤ b) := by
          simp [invalid_range_check, hent, hside] at hchk
          exact not_le.mpr hchk
        simp only [plan_legs, plan_entries, validate_range, hent, hside, htps]
        rw [if_neg hab]
        exact ⟨_, _, rfl, rfl, rfl, rfl, rfl⟩
      · have hab : ¬ (b ≤ a) := by
          simp [invalid_range_check, hent, hside] at hchk
          exact not_le.mpr hchk
        simp only [plan_legs, plan_entries, validate_range, hent, hside, htps]
        rw [if_neg hab]
        exact ⟨_, _, rfl, rfl, rfl, rfl, rfl⟩

/-- Witness for C5 at concrete inputs. -/
theorem claim_C5_witness :
    ((tp_block_from_list [some (3480 : ℚ), some 3485, some 3490, none]
        ([some (3480 : ℚ), some 3485, some 3490, none].any (· = none))).getD 3 none = none)
    ∧ (plan_legs defaultConfig
        { entries := [(3475 : ℚ)],
          tps := [some 3480, some 3485, some 3490, none] } 5 =
      .ok (List.replicate 4 (some (3475 : ℚ)),
           [some 3480, some 3485, some 3490, none], 4)) := by
  constructor
  · exact (claim_C5 defaultConfig
      { entries := [(3475 : ℚ)], tps := [some 3480, some 3485, some 3490, none] } 5).1 rfl
  · exact (claim_C5 defaultConfig
      { entries := [(3475 : ℚ)], tps := [some 3480, some 3485, some 3490, none] } 5).2.1
      3475 rfl rfl

/-- Claim C10. The idempotency-key blob of `_make_action_id` covers only each
leg's `(symbol, side, leg_id, tp, sl, entry)` together with the action type
and `source_msg_id`: changing volumes and tags arbitrarily leaves both the
hash component (the blob) and the whole `action_id` unchanged. -/
theorem claim_C10 (h : String → String) (dt t smid : String) (legs : List Leg)
    (fv : Leg → ℚ) (ft : Leg → Option String) :
    make_action_blob t smid (legs.map fun l => { l with volume := fv l, tag := ft l })
        = make_action_blob t smid legs
    ∧ make_action_id h dt t smid (legs.map fun l => { l with volume := fv l, tag := ft l })
        = make_action_id h dt t smid legs := by
  have henc : ∀ l : Leg,
      enc_leg_content { l with volume := fv l, tag := ft l } = enc_leg_content l :=
    fun _ => rfl
  have hb : make_action_blob t smid (legs.map fun l => { l with volume := fv l, tag := ft l })
      = make_action_blob t smid legs := by
    unfold make_action_blob
    simp [List.map_map, Function.comp_def, henc]
  exact ⟨hb, by unfold make_action_id; rw [hb]⟩

/-! ## The position-registry boundary (`app/refindex.py` metadata records)

`list_open_legs` returns persisted dicts. A `LegMeta` record models one
such dict; a key that is missing or maps to `None` is `none` (the source
reads every key with `.get`). `result` is the nested venue-ack dict. -/

structure MetaResult where
  order : Option Int := none
  position : Option Int := none
  deal : Option Int := none
  order_type_label : Option String := none
  type_label : Option String := none
deriving DecidableEq, Repr

instance : Inhabited MetaResult := ⟨{}⟩

structure LegMeta where
  leg_tag : Option String := none
  tag : Option String := none
  symbol : Option String := none
  side : Option Side := none
  volume : Option ℚ := none
  entry : Option ℚ := none
  sl : Option ℚ := none
  tp : Option ℚ := none
  order_ticket : Option Int := none
  order : Option Int := none
  position_ticket : Option Int := none
  position : Option Int := none
  deal : Option Int := none
  deal_ticket : Option Int := none
  order_type : Option String := none
  otype : Option String := none
  result : Option MetaResult := none
deriving DecidableEq, Repr

/-- The external collaborators of `build_actions_from_message`, per spec §6:
the semantic rule engine (external YAML), the position registry, and the
presence of the unparsed reporter. All are total functions; theorems
quantify over them. -/
structure Env where
  /-- Intent of the winning semantic rule (`sem_evaluate` result), `none`
  when no rule matched. -/
  sem_intent : Option String := none
  /-- Whether an `ignore_rules.contains` phrase matched (used only when the
  ignore gate is enabled). -/
  ignore_match : Bool := false
  /-- Registry `resolve_group_key(text, reply_to_msg_id)`, keyed by the reply id. -/
  resolve_gk : String → Option String := fun _ => none
  /-- Registry `list_open_legs(gk)`. -/
  list_open_legs : String → List LegMeta := fun _ => []
  /-- Whether `unparsed_reporter` was passed (the reporter is invoked only
  when both it and the raw message are available). -/
  reporter_present : Bool := false

/-- The raw chat message object (only the attributes the builder reads). -/
structure RawMsg where
  chat_id : Option Int := none
  sender_username : Option String := none
  reply_to_msg_id : Option String := none

/-! ## Coalescing (`_coalesce_modify_legs`) -/

/-- The dedup key: position ticket, else order ticket, else tag
(`f'tag:{l.tag}'` renders a missing tag as the string `"None"`). -/
def key_for (l : Leg) : String :=
  if truthyI l.position_ticket then "pos:" ++ toString (l.position_ticket.getD 0)
  else if truthyI l.order_ticket then "ord:" ++ toString (l.order_ticket.getD 0)
  else "tag:" ++ pyStrOS l.tag

/-- Insertion-ordered grouping (Python `dict.setdefault(key, []).append`). -/
def insert_grouped (m : List (String × List Leg)) (k : String) (l : Leg) :
    List (String × List Leg) :=
  match m with
  | [] => [(k, [l])]
  | (k', ls) :: rest =>
    if k' = k then (k', ls ++ [l]) :: rest
    else (k', ls) :: insert_grouped rest k l

def group_legs (legs : List Leg) : List (String × List Leg) :=
  legs.foldl (fun m l => insert_grouped m (key_for l) l) []

/-- The sort key `str(getattr(l, 'tag', ...))` = `str(l.tag)`. -/
def sort_key (l : Leg) : String := pyStrOS l.tag

/-- Stable insertion used to model Python's stable `sorted(arr, key=...)`. -/
def sorted_insert (l : Leg) : List Leg → List Leg
  | [] => [l]
  | x :: xs =>
    if sort_key x < sort_key l then x :: sorted_insert l xs
    else l :: x :: xs

/-- Python `sorted(arr, key=lambda l: str(l.tag))` (stable). -/
def sort_by_tag (legs : List Leg) : List Leg := legs.foldr sorted_insert []

/-- A single `MGMT_COALESCE` log event. -/
structure CoalesceEvent where
  gk : String
  ticket_key : String
  kept : Option String
  dropped : List (Option String)
deriving DecidableEq, Repr

/-- Embedding of `_coalesce_modify_legs(legs, gk)`: ticket-keyed groups keep the first
leg in tag-sort order and log the dropped tags; tag-keyed groups pass
through. Returns the kept legs and the logged events. -/
def coalesce_modify_legs (legs : List Leg) (gk : String) :
    List Leg × List CoalesceEvent :=
  (group_legs legs).foldl
    (fun acc kv =>
      let (k, arr) := kv
      if k.startsWith "pos:" ∨ k.startsWith "ord:" then
        match sort_by_tag arr with
        | [] => acc
        | keep :: dropped =>
          (acc.1 ++ [keep],
           if dropped ≠ [] then
             acc.2 ++ [{ gk := gk, ticket_key := k, kept := keep.tag,
                         dropped := dropped.map (·.tag) }]
           else acc.2)
      else (acc.1 ++ arr, acc.2))
    ([], [])

/-! ## MODIFY and CANCEL builders -/

/-- The `base_symbol` expression shared by the MGMT builders:
`legs_meta[0].get('symbol') if legs_meta and legs_meta[0].get('symbol')
else (ps.symbol or DEFAULT_SYMBOL)`. -/
def base_symbol_of (cfg : Config) (legs_meta : List LegMeta) (ps : ParseSignal) :
    String :=
  match legs_meta.head? with
  | some m =>
    match m.symbol with
    | some s => if s = "" then pyOrSD ps.symbol cfg.default_symbol else s
    | none => pyOrSD ps.symbol cfg.default_symbol
  | none => pyOrSD ps.symbol cfg.default_symbol

/-- Embedding of `build_modify_action_from_gk(gk, ps, source_msg_id, mgmt_intent)`. -/
def build_modify_action_from_gk (cfg : Config) (env : Env) (h : String → String)
    (dt : String) (gk : String) (ps : ParseSignal) (source_msg_id : String)
    (mgmt_intent : String) : Option Action :=
  let legs_meta := env.list_open_legs gk
  if legs_meta = [] then none
  else
    let base_symbol := base_symbol_of cfg legs_meta ps
    let client_id := client_id_for_message base_symbol.toUpper source_msg_id
    let legs := legs_meta.enum.map fun im =>
      let (i, meta) := im
      let leg_id := make_leg_id client_id (i + 1)
      let base_entry := meta.entry
      let target_sl :=
        if mgmt_intent = "MGMT_BREAK_EVEN" ∨ mgmt_intent = "MGMT_RISK_FREE" then
          base_entry
        else meta.sl
      -- `meta.get('side') or ps.side or 'BUY'`
      let leg_side : Side := ((meta.side).orElse (fun _ => ps.side)).getD Side.BUY
      { leg_id := leg_id
        symbol := pyOrSD meta.symbol base_symbol
        side := some leg_side
        volume := pyOrQD meta.volume cfg.default_leg_volume
        entry := base_entry
        sl := target_sl
        tp := meta.tp
        tag := pyOrS meta.leg_tag meta.tag
        position_ticket := meta.position_ticket
        order_ticket := meta.order_ticket : Leg }
    let legs := (coalesce_modify_legs legs gk).1
    some { action_id := make_action_id h dt "MODIFY" source_msg_id legs
           type := "MODIFY", legs := legs, source_msg_id := some source_msg_id }

/-- The pending-order type hints of `build_cancel_pending_action_from_gk`
(non-binding, see `is_pending`). -/
def pending_type_hints : List String :=
  ["BUY_LIMIT", "SELL_LIMIT", "BUY_STOP", "SELL_STOP",
   "BUY_STOP_LIMIT", "SELL_STOP_LIMIT", "PENDING"]

/-- Embedding of `_is_pending(meta)`: an order ticket is present and neither a position
ticket nor a deal is; the order-type hint branch returns `True` and the
fall-through also returns `True`, so the hints never change the result. -/
def is_pending (meta : LegMeta) : Bool :=
  let res := meta.result.getD {}
  let ord_t := pyOrI (pyOrI meta.order_ticket meta.order) res.order
  let pos_t := pyOrI (pyOrI meta.position_ticket meta.position) res.position
  let deal := pyOrI (pyOrI meta.deal meta.deal_ticket) res.deal
  if ¬ truthyI ord_t then false
  else if truthyI deal || truthyI pos_t then false
  else
    let typ := (pyOrS (pyOrS (pyOrS meta.order_type meta.otype) res.order_type_label)
      res.type_label).getD ""
    let typ := typ.toUpper
    if typ ≠ "" ∧ pending_type_hints.any (fun hint => substr hint.data typ.data) then
      true
    else true

/-- The per-row mapping of the CANCEL builder's leg loop
(`for i, meta in enumerate(legs_meta, start=1)` with its `_is_pending` and
order-ticket guards): returns `none` exactly when the row is skipped (not
pending, or no order ticket), and otherwise the constructed `Leg`. -/
def cancel_leg_of (cfg : Config) (ps : ParseSignal)
    (base_symbol client_id : String) (im : Nat × LegMeta) : Option Leg :=
  let (i0, meta) := im
  let i := i0 + 1
  if ¬ is_pending meta then none
  else
    let leg_id := client_id ++ "#" ++ toString i
    let res := meta.result.getD {}
    let pos_t := pyOrI meta.position_ticket res.position
    let ord_t := pyOrI (pyOrI meta.order_ticket meta.order) res.order
    if ¬ truthyI ord_t then none
    else some
      { leg_id := leg_id
        symbol := pyOrSD meta.symbol base_symbol
        side := some (ps.side.getD Side.BUY)
        -- `meta.get('volume') or getattr(ps, 'leg_volume', None) or
        -- DEFAULT_LEG_VOLUME` — `ParseSignal` has no `leg_volume`
        volume := pyOrQD meta.volume cfg.default_leg_volume
        entry := none, sl := none, tp := none
        -- `str(meta.get('leg_tag') or meta.get('tag') or i)`
        tag := some ((pyTruthyS (pyOrS meta.leg_tag meta.tag)).getD (toString i))
        position_ticket := if truthyI pos_t then pos_t else none
        order_ticket := if truthyI ord_t then ord_t else none : Leg }

/-- Embedding of `build_cancel_pending_action_from_gk(gk, ps, source_msg_id)`. -/
def build_cancel_pending_action_from_gk (cfg : Config) (env : Env)
    (h : String → String) (dt : String) (gk : String) (ps : ParseSignal)
    (source_msg_id : String) : Option Action :=
  let legs_meta := env.list_open_legs gk
  if legs_meta = [] then none
  else
    let base_symbol := base_symbol_of cfg legs_meta ps
    let client_id := client_id_for_message base_symbol.toUpper source_msg_id
    let legs := legs_meta.enum.filterMap
      (cancel_leg_of cfg ps base_symbol client_id)
    if legs = [] then none
    else some { action_id := make_action_id h dt "CANCEL" source_msg_id legs
                type := "CANCEL", legs := legs, source_msg_id := some source_msg_id }

/-! ## Claim C8 -/

/-- The order-ticket chain of `_is_pending`
(`meta.get("order_ticket") or meta.get("order") or res.get("order")`). -/
def meta_ord (meta : LegMeta) : Option Int :=
  pyOrI (pyOrI meta.order_ticket meta.order) (meta.result.getD {}).order

/-- The position-ticket chain of `_is_pending`. -/
def meta_pos (meta : LegMeta) : Option Int :=
  pyOrI (pyOrI meta.position_ticket meta.position) (meta.result.getD {}).position

/-- The deal chain of `_is_pending`. -/
def meta_deal (meta : LegMeta) : Option Int :=
  pyOrI (pyOrI meta.deal meta.deal_ticket) (meta.result.getD {}).deal

/-- Helper: `_is_pending` is exactly "has an order ticket, and has neither a
position ticket nor a deal" — the order-type hints never affect it. -/
theorem is_pending_characterization (meta : LegMeta) :
    is_pending meta =
      (truthyI (meta_ord meta) && !truthyI (meta_deal meta)
        && !truthyI (meta_pos meta)) := by
  simp only [is_pending, meta_ord, meta_pos, meta_deal]
  cases hord : truthyI (pyOrI (pyOrI meta.order_ticket meta.order)
      (meta.result.getD {}).order)
  · simp [hord]
  · cases hdeal : truthyI (pyOrI (pyOrI meta.deal meta.deal_ticket)
        (meta.result.getD {}).deal)
    · cases hpos : truthyI (pyOrI (pyOrI meta.position_ticket meta.position)
          (meta.result.getD {}).position)
      · simp [hord, hdeal, hpos]
      · simp [hord, hdeal, hpos]
    · simp [hord, hdeal]

/-- Claim C8. A CANCEL action built by `build_cancel_pending_action_from_gk`
contains only legs classified as pending: (i) `_is_pending` is exactly
"order ticket present and neither a position ticket nor a deal", the
order-type hints never affecting it; (ii) any row with a position ticket or
a deal (already filled) is excluded — its `cancel_leg_of` is `none`; and
(iii) every leg of the CANCEL is exactly the leg that `cancel_leg_of`
builds from some pending row of the registry (order ticket present, no
position ticket, no deal). -/
theorem claim_C8 (cfg : Config) (env : Env) (h : String → String)
    (dt gk : String) (ps : ParseSignal) (smid : String) (a : Action)
    (hbuild : build_cancel_pending_action_from_gk cfg env h dt gk ps smid = some a) :
    (∀ meta : LegMeta, is_pending meta =
      (truthyI (meta_ord meta) && !truthyI (meta_deal meta)
        && !truthyI (meta_pos meta)))
    ∧ (∀ bs cid : String, ∀ im : Nat × LegMeta,
        truthyI (meta_pos im.2) = true ∨ truthyI (meta_deal im.2) = true →
        cancel_leg_of cfg ps bs cid im = none)
    ∧ ∀ l ∈ a.legs, ∃ im ∈ (env.list_open_legs gk).enum,
        is_pending im.2 = true
        ∧ truthyI (meta_ord im.2) = true
        ∧ truthyI (meta_pos im.2) = false
        ∧ truthyI (meta_deal im.2) = false
        ∧ cancel_leg_of cfg ps
            (base_symbol_of cfg (env.list_open_legs gk) ps)
            (client_id_for_message
              (base_symbol_of cfg (env.list_open_legs gk) ps).toUpper smid)
            im = some l := by
  refine ⟨is_pending_characterization, ?_, ?_⟩
  · intro bs cid im hfilled
    obtain ⟨i0, meta⟩ := im
    simp only at hfilled
    have hnp : is_pending meta = false := by
      rw [is_pending_characterization]
      rcases hfilled with hp | hd
      · rw [hp]
        simp
      · rw [hd]
        simp
    unfold cancel_leg_of
    dsimp only
    rw [if_pos (by simp [hnp])]
  · intro l hl
    unfold build_cancel_pending_action_from_gk at hbuild
    dsimp only at hbuild
    split at hbuild
    · exact absurd hbuild (by simp)
    · split at hbuild
      · exact absurd hbuild (by simp)
      · cases hbuild
        dsimp only at hl
        obtain ⟨im, him, hf⟩ := List.mem_filterMap.mp hl
        obtain ⟨i0, meta⟩ := im
        refine ⟨(i0, meta), him, ?_⟩
        have hf' := hf
        unfold cancel_leg_of at hf'
        dsimp only at hf'
        split at hf'
        · exact absurd hf' (by simp)
        · rename_i hpend2
          have hp : is_pending meta = true := by
            by_contra hc
            exact hpend2 (by simpa using hc)
          have hchar := is_pending_characterization meta
          rw [hp] at hchar
          have hord : truthyI (meta_ord meta) = true := by
            cases hh : truthyI (meta_ord meta)
            · rw [hh] at hchar; simp at hchar
            · rfl
          have hdeal : truthyI (meta_deal meta) = false := by
            cases hh : truthyI (meta_deal meta)
            · rfl
            · rw [hh] at hchar; simp at hchar
          have hposf : truthyI (meta_pos meta) = false := by
            cases hh : truthyI (meta_pos meta)
            · rfl
            · rw [hh] at hchar; simp at hchar
          exact ⟨hp, hord, hposf, hdeal, hf⟩

/-- Registry environment for the C8 witness: one pending leg (order ticket
only) and one filled leg (position + deal). -/
def c8env : Env :=
  { list_open_legs := fun _ =>
      [{ leg_tag := some "t1", order_ticket := some 11 },
       { leg_tag := some "t2", order_ticket := some 12,
         position_ticket := some 22, deal := some 32 }] }

/-- Witness for C8: on `c8env` the CANCEL action exists and its first leg is
exactly the `cancel_leg_of` output of a pending registry row (order ticket,
no position, no deal). -/
theorem claim_C8_witness :
    ∃ im ∈ (c8env.list_open_legs "OPEN_1").enum,
        is_pending im.2 = true
        ∧ truthyI (meta_ord im.2) = true
        ∧ truthyI (meta_pos im.2) = false
        ∧ truthyI (meta_deal im.2) = false
        ∧ cancel_leg_of defaultConfig {}
            (base_symbol_of defaultConfig (c8env.list_open_legs "OPEN_1") {})
            (client_id_for_message
              (base_symbol_of defaultConfig
                (c8env.list_open_legs "OPEN_1") {}).toUpper "7")
            im
          = some ((build_cancel_pending_action_from_gk defaultConfig c8env
              (fun _ => "H") "TS" "OPEN_1" {} "7" |>.getD default).legs.headI) :=
  (claim_C8 defaultConfig c8env
    (fun _ => "H") "TS" "OPEN_1" {} "7" _ (by with_unfolding_all rfl)).2.2
    ((build_cancel_pending_action_from_gk defaultConfig c8env
        (fun _ => "H") "TS" "OPEN_1" {} "7" |>.getD default).legs.headI)
    (by with_unfolding_all exact List.mem_cons_self _ _)

/-! ## Claim C9: coalescing lemmas -/

/-- Concatenated image (used to state what the coalescing fold produces). -/
def concat_map (f : α → List β) : List α → List β
  | [] => []
  | x :: xs => f x ++ concat_map f xs

/-- What one group contributes to the coalesced leg list. -/
def group_out (kv : String × List Leg) : List Leg :=
  if kv.1.startsWith "pos:" ∨ kv.1.startsWith "ord:" then
    match sort_by_tag kv.2 with
    | [] => []
    | keep :: _ => [keep]
  else kv.2

/-- What one group contributes to the coalesce log. -/
def group_events (gk : String) (kv : String × List Leg) : List CoalesceEvent :=
  if kv.1.startsWith "pos:" ∨ kv.1.startsWith "ord:" then
    match sort_by_tag kv.2 with
    | [] => []
    | keep :: dropped =>
      if dropped ≠ [] then
        [{ gk := gk, ticket_key := kv.1, kept := keep.tag,
           dropped := dropped.map (·.tag) }]
      else []
  else []

/-- The members of a group, selected by key. -/
def legs_of (m : List (String × List Leg)) (k : String) : List Leg :=
  concat_map (fun kv => if kv.1 = k then kv.2 else []) m

theorem legs_of_nil (k : String) : legs_of [] k = [] := rfl

theorem not_mem_keys_legs_of {m : List (String × List Leg)} {k : String}
    (h : ∀ kv ∈ m, kv.1 ≠ k) : legs_of m k = [] := by
  induction m with
  | nil => rfl
  | cons kv rest ih =>
    simp only [legs_of, concat_map]
    rw [if_neg (h kv (by simp))]
    exact ih fun kv' h' => h kv' (by simp [h'])

/-- Keys after `insert_grouped`. -/
theorem keys_insert_grouped (m : List (String × List Leg)) (k : String) (l : Leg) :
    (insert_grouped m k l).map (·.1) =
      (if k ∈ m.map (·.1) then m.map (·.1) else m.map (·.1) ++ [k]) := by
  induction m with
  | nil => simp [insert_grouped]
  | cons kv rest ih =>
    obtain ⟨k', ls⟩ := kv
    by_cases hkk : k' = k
    · simp [insert_grouped, hkk]
    · simp only [insert_grouped, if_neg hkk, List.map_cons, ih]
      have : (k ∈ k' :: rest.map (·.1)) ↔ (k ∈ rest.map (·.1)) := by
        simp [List.mem_cons, Ne.symm hkk, eq_comm]
      by_cases hmem : k ∈ rest.map (·.1) <;> simp_all

theorem keys_insert_nodup {m : List (String × List Leg)} {k : String} {l : Leg}
    (h : (m.map (·.1)).Nodup) : ((insert_grouped m k l).map (·.1)).Nodup := by
  rw [keys_insert_grouped]
  by_cases hmem : k ∈ m.map (·.1)
  · simpa [hmem]
  · simpa [hmem] using List.Nodup.append h (by simp) (by simpa using hmem)

/-- Lemma: `insert_grouped` appends to exactly the `k` group. -/
theorem legs_of_insert_grouped {m : List (String × List Leg)}
    (hnd : (m.map (·.1)).Nodup) (k : String) (l : Leg) (k' : String) :
    legs_of (insert_grouped m k l) k' =
      legs_of m k' ++ (if k' = k then [l] else []) := by
  induction m with
  | nil =>
    by_cases h : k = k' <;>
      simp [insert_grouped, legs_of, concat_map, h, eq_comm]
  | cons kv rest ih =>
    obtain ⟨k0, ls⟩ := kv
    have hnd' : (rest.map (·.1)).Nodup := (List.nodup_cons.mp hnd).2
    by_cases hk0 : k0 = k
    · -- append into this group
      have hknot : ∀ kv' ∈ rest, kv'.1 ≠ k := by
        intro kv' hkv' hc
        exact (List.nodup_cons.mp hnd).1 (hk0 ▸ hc ▸ List.mem_map_of_mem (·.1) hkv')
      simp only [insert_grouped, if_pos hk0, legs_of, concat_map]
      by_cases hk' : k0 = k'
      · have hkk' : k' = k := by rw [← hk', hk0]
        subst hkk'
        have hrest : legs_of rest k' = [] :=
          not_mem_keys_legs_of fun kv' h' => hknot kv' h'
        simp only [legs_of] at hrest
        simp [hk', hrest]
      · simp [hk', if_neg, show ¬ (k' = k) from fun hc => hk' (by rw [hk0, ← hc])]
    · simp only [insert_grouped, if_neg hk0, legs_of, concat_map]
      have := ih hnd'
      simp only [legs_of] at this
      rw [this, List.append_assoc]

/-- Every member of a group carries that group's key. -/
theorem key_invariant_insert {m : List (String × List Leg)}
    (h : ∀ kv ∈ m, ∀ x ∈ kv.2, key_for x = kv.1) {k : String} {l : Leg}
    (hl : key_for l = k) :
    ∀ kv ∈ insert_grouped m k l, ∀ x ∈ kv.2, key_for x = kv.1 := by
  induction m with
  | nil =>
    intro kv hkv x hx
    simp only [insert_grouped, List.mem_singleton] at hkv
    subst hkv
    simp only [List.mem_singleton] at hx
    subst hx
    exact hl
  | cons kv0 rest ih =>
    obtain ⟨k0, ls⟩ := kv0
    intro kv hkv x hx
    by_cases hk0 : k0 = k
    · simp only [insert_grouped, if_pos hk0, List.mem_cons] at hkv
      rcases hkv with rfl | hkv
      · simp only [List.mem_append, List.mem_singleton] at hx
        rcases hx with hx | rfl
        · exact h (k0, ls) (by simp) x hx
        · rw [hl, hk0]
      · exact h kv (by simp [hkv]) x hx
    · simp only [insert_grouped, if_neg hk0, List.mem_cons] at hkv
      rcases hkv with rfl | hkv
      · exact h (k0, ls) (by simp) x hx
      · exact ih (fun kv' h' => h kv' (by simp [h'])) kv hkv x hx

/-- The three running invariants of `group_legs`, established for the fold. -/
theorem group_legs_fold_invariant (legs : List Leg)
    (m : List (String × List Leg))
    (hnd : (m.map (·.1)).Nodup)
    (hkey : ∀ kv ∈ m, ∀ x ∈ kv.2, key_for x = kv.1) :
    let m' := legs.foldl (fun m l => insert_grouped m (key_for l) l) m
    ((m'.map (·.1)).Nodup
      ∧ (∀ kv ∈ m', ∀ x ∈ kv.2, key_for x = kv.1)
      ∧ ∀ k, legs_of m' k = legs_of m k ++ legs.filter (fun l => key_for l = k)) := by
  induction legs generalizing m with
  | nil => exact ⟨hnd, hkey, fun k => by simp [List.filter]⟩
  | cons l rest ih =>
    obtain ⟨h1, h2, h3⟩ := ih (insert_grouped m (key_for l) l)
      (keys_insert_nodup hnd) (key_invariant_insert hkey rfl)
    refine ⟨h1, h2, fun k => ?_⟩
    rw [List.foldl_cons, h3 k, legs_of_insert_grouped hnd (key_for l) l k]
    by_cases hlk : key_for l = k
    · simp [List.filter_cons, hlk, List.append_assoc]
    · simp [List.filter_cons, hlk, List.append_assoc]
      exact fun hc => hlk hc.symm

theorem group_legs_nodup (legs : List Leg) :
    ((group_legs legs).map (·.1)).Nodup :=
  (group_legs_fold_invariant legs [] (by simp) (by simp)).1

theorem group_legs_key_invariant (legs : List Leg) :
    ∀ kv ∈ group_legs legs, ∀ x ∈ kv.2, key_for x = kv.1 :=
  (group_legs_fold_invariant legs [] (by simp) (by simp)).2.1

theorem group_legs_legs_of (legs : List Leg) (k : String) :
    legs_of (group_legs legs) k = legs.filter (fun l => key_for l = k) := by
  have := (group_legs_fold_invariant legs [] (by simp) (by simp)).2.2 k
  simpa [legs_of_nil] using this

/-- Tag-sort order. -/
def tag_le (a b : Leg) : Prop := sort_key a ≤ sort_key b

theorem sorted_insert_perm (l : Leg) (xs : List Leg) :
    List.Perm (sorted_insert l xs) (l :: xs) := by
  induction xs with
  | nil => exact List.Perm.refl _
  | cons x xs ih =>
    simp only [sorted_insert]
    split
    · exact (ih.cons x).trans (List.Perm.swap l x xs)
    · exact List.Perm.refl _

theorem sort_by_tag_perm (xs : List Leg) : List.Perm (sort_by_tag xs) xs := by
  induction xs with
  | nil => exact List.Perm.refl _
  | cons x xs ih =>
    simp only [sort_by_tag, List.foldr_cons]
    exact (sorted_insert_perm x _).trans (ih.cons x)

theorem sorted_insert_sorted (l : Leg) {xs : List Leg}
    (h : xs.Sorted tag_le) : (sorted_insert l xs).Sorted tag_le := by
  induction xs with
  | nil => simp [sorted_insert, tag_le]
  | cons x xs ih =>
    rcases List.sorted_cons.mp h with ⟨hx, hxs⟩
    simp only [sorted_insert]
    split
    · rename_i hlt
      refine List.sorted_cons.mpr ⟨?_, ih hxs⟩
      intro b hb
      rcases List.mem_cons.mp ((sorted_insert_perm l xs).mem_iff.mp hb) with rfl | hbxs
      · exact le_of_lt hlt
      · exact hx b hbxs
    · rename_i hnlt
      refine List.sorted_cons.mpr ⟨?_, h⟩
      intro b hb
      rcases List.mem_cons.mp hb with rfl | hbxs
      · exact le_of_not_lt hnlt
      · exact le_trans (le_of_not_lt hnlt) (hx b hbxs)

theorem sort_by_tag_sorted (xs : List Leg) : (sort_by_tag xs).Sorted tag_le := by
  induction xs with
  | nil => simp [sort_by_tag]
  | cons x xs ih =>
    simp only [sort_by_tag, List.foldr_cons]
    exact sorted_insert_sorted x ih

/-- The coalescing fold, written out. -/
theorem coalesce_fold_spec (gk : String) (m : List (String × List Leg))
    (acc : List Leg × List CoalesceEvent) :
    m.foldl
      (fun acc kv =>
        let (k, arr) := kv
        if k.startsWith "pos:" ∨ k.startsWith "ord:" then
          match sort_by_tag arr with
          | [] => acc
          | keep :: dropped =>
            (acc.1 ++ [keep],
             if dropped ≠ [] then
               acc.2 ++ [{ gk := gk, ticket_key := k, kept := keep.tag,
                           dropped := dropped.map (·.tag) }]
             else acc.2)
        else (acc.1 ++ arr, acc.2)) acc
    = (acc.1 ++ concat_map group_out m,
       acc.2 ++ concat_map (group_events gk) m) := by
  induction m generalizing acc with
  | nil => simp [concat_map]
  | cons kv rest ih =>
    obtain ⟨k, arr⟩ := kv
    rw [List.foldl_cons, ih]
    simp only [concat_map, group_out, group_events]
    split
    · rcases hs : sort_by_tag arr with _ | ⟨keep, dropped⟩
      · simp
      · rcases dropped with _ | ⟨d, ds⟩ <;> simp
    · simp

theorem coalesce_spec (legs : List Leg) (gk : String) :
    coalesce_modify_legs legs gk =
      (concat_map group_out (group_legs legs),
       concat_map (group_events gk) (group_legs legs)) := by
  unfold coalesce_modify_legs
  rw [coalesce_fold_spec gk (group_legs legs) ([], [])]
  simp

theorem group_out_nil (k : String) : group_out (k, []) = [] := by
  unfold group_out
  split <;> simp [sort_by_tag]

theorem mem_group_out {x : Leg} {k : String} {arr : List Leg}
    (hx : x ∈ group_out (k, arr)) : x ∈ arr := by
  unfold group_out at hx
  split at hx
  · rcases hs : sort_by_tag arr with _ | ⟨keep, dropped⟩ <;> rw [hs] at hx
    · simp at hx
    · simp only [List.mem_singleton] at hx
      subst hx
      exact (sort_by_tag_perm arr).mem_iff.mp (hs ▸ List.mem_cons_self _ _)
  · exact hx

theorem mem_concat_map {f : α → List β} {b : β} {a : α} {l : List α}
    (ha : a ∈ l) (hb : b ∈ f a) : b ∈ concat_map f l := by
  induction l with
  | nil => cases ha
  | cons x xs ih =>
    rcases List.mem_cons.mp ha with rfl | ha'
    · exact List.mem_append.mpr (Or.inl hb)
    · exact List.mem_append.mpr (Or.inr (ih ha'))

/-- Filtering the coalesced output by a key gives exactly the contribution
of that key's group. -/
theorem filter_concat_group_out (m : List (String × List Leg))
    (hnd : (m.map (·.1)).Nodup)
    (hkey : ∀ kv ∈ m, ∀ x ∈ kv.2, key_for x = kv.1) (k : String) :
    (concat_map group_out m).filter (fun l => key_for l = k)
      = group_out (k, legs_of m k) := by
  induction m with
  | nil => simp [concat_map, legs_of_nil, group_out_nil]
  | cons kv rest ih =>
    obtain ⟨k0, arr⟩ := kv
    have hnd' : (rest.map (·.1)).Nodup := (List.nodup_cons.mp hnd).2
    have hkey' : ∀ kv ∈ rest, ∀ x ∈ kv.2, key_for x = kv.1 :=
      fun kv h => hkey kv (by simp [h])
    simp only [concat_map, List.filter_append]
    by_cases hk0 : k0 = k
    · subst hk0
      have hrest0 : legs_of rest k0 = [] := by
        apply not_mem_keys_legs_of
        intro kv' h' hc
        exact (List.nodup_cons.mp hnd).1 (hc ▸ List.mem_map_of_mem (·.1) h')
      have hfilter_rest : (concat_map group_out rest).filter (fun l => key_for l = k0) = [] := by
        rw [ih hnd' hkey', hrest0, group_out_nil]
      have hall : ∀ x ∈ group_out (k0, arr), key_for x = k0 :=
        fun x hx => hkey (k0, arr) (by simp) x (mem_group_out hx)
      have hself : (group_out (k0, arr)).filter (fun l => key_for l = k0)
          = group_out (k0, arr) :=
        List.filter_eq_self.mpr fun x hx => by simp [hall x hx]
      rw [hfilter_rest, hself]
      simp only [legs_of, concat_map, if_pos rfl]
      have : legs_of rest k0 = [] := hrest0
      simp only [legs_of] at this
      rw [this, List.append_nil]
      simp
    · have hnone : (group_out (k0, arr)).filter (fun l => key_for l = k) = [] := by
        apply List.filter_eq_nil_iff.mpr
        intro x hx
        have := hkey (k0, arr) (by simp) x (mem_group_out hx)
        simp [this, hk0]
      rw [hnone, List.nil_append, ih hnd' hkey']
      simp only [legs_of, concat_map, if_neg hk0]
      rfl

/-- If a key has members, it owns a group. -/
theorem exists_group_of_legs_of {m : List (String × List Leg)} {k : String}
    (hne : legs_of m k ≠ []) : ∃ arr, (k, arr) ∈ m := by
  induction m with
  | nil => exact absurd rfl hne
  | cons kv rest ih =>
    obtain ⟨k0, arr⟩ := kv
    by_cases hk0 : k0 = k
    · exact ⟨arr, by simp [hk0]⟩
    · simp only [legs_of, concat_map, if_neg hk0, List.nil_append] at hne
      obtain ⟨arr', hmem⟩ := ih hne
      exact ⟨arr', by simp [hmem]⟩

/-- With distinct keys, a group's members are exactly `legs_of` its key. -/
theorem legs_of_eq_of_mem {m : List (String × List Leg)}
    (hnd : (m.map (·.1)).Nodup) {k : String} {arr : List Leg}
    (hmem : (k, arr) ∈ m) : legs_of m k = arr := by
  induction m with
  | nil => cases hmem
  | cons kv rest ih =>
    obtain ⟨k0, arr0⟩ := kv
    have hnd' : (rest.map (·.1)).Nodup := (List.nodup_cons.mp hnd).2
    rcases List.mem_cons.mp hmem with heq | hmem'
    · have hk := congrArg Prod.fst heq
      have ha := congrArg Prod.snd heq
      simp only at hk ha
      subst hk
      subst ha
      have hrest : legs_of rest k = [] := by
        apply not_mem_keys_legs_of
        intro kv' h' hc
        exact (List.nodup_cons.mp hnd).1 (hc ▸ List.mem_map_of_mem (·.1) h')
      simp [legs_of, concat_map]
      simp only [legs_of] at hrest
      simp [hrest]
    · have hk0 : k0 ≠ k := by
        intro hc
        exact (List.nodup_cons.mp hnd).1
          (hc ▸ List.mem_map_of_mem (·.1) hmem')
      simp only [legs_of, concat_map, if_neg hk0, List.nil_append]
      exact ih hnd' hmem'

/-- Filtering the coalesced legs by a key yields that key's group
contribution, computed over the legs with that key. -/
theorem coalesce_filter (legs : List Leg) (gk k : String) :
    ((coalesce_modify_legs legs gk).1.filter (fun l => key_for l = k))
      = group_out (k, legs.filter (fun l => key_for l = k)) := by
  rw [coalesce_spec]
  dsimp only
  rw [filter_concat_group_out (group_legs legs) (group_legs_nodup legs)
      (group_legs_key_invariant legs) k, group_legs_legs_of]

/-- Claim C9. Coalescing: for a ticket key (`pos:`/`ord:`), the MODIFY output
keeps exactly one leg — the first in ascending tag-sort order — and drops
the rest; when duplicates existed, a coalesce event is logged naming the
ticket key, the kept leg's tag and the dropped legs' tags; legs keyed only
by tag pass through unchanged. -/
theorem claim_C9 (legs : List Leg) (gk : String) :
    (∀ k, (k.startsWith "pos:" ∨ k.startsWith "ord:") →
      legs.filter (fun l => key_for l = k) ≠ [] →
      (coalesce_modify_legs legs gk).1.filter (fun l => key_for l = k)
        = (sort_by_tag (legs.filter (fun l => key_for l = k))).take 1)
    ∧ (∀ k, (k.startsWith "pos:" ∨ k.startsWith "ord:") →
      ∀ l' ∈ (coalesce_modify_legs legs gk).1, key_for l' = k →
        ∀ l ∈ legs, key_for l = k → sort_key l' ≤ sort_key l)
    ∧ (∀ k, (k.startsWith "pos:" ∨ k.startsWith "ord:") →
      ∀ keep dropped,
        sort_by_tag (legs.filter (fun l => key_for l = k)) = keep :: dropped →
        dropped ≠ [] →
        ({ gk := gk, ticket_key := k, kept := keep.tag,
           dropped := dropped.map (·.tag) } : CoalesceEvent)
          ∈ (coalesce_modify_legs legs gk).2)
    ∧ (∀ k, ¬ (k.startsWith "pos:" ∨ k.startsWith "ord:") →
      (coalesce_modify_legs legs gk).1.filter (fun l => key_for l = k)
        = legs.filter (fun l => key_for l = k)) := by
  refine ⟨?_, ?_, ?_, ?_⟩
  · intro k hk hne
    rw [coalesce_filter]
    simp only [group_out, if_pos hk]
    rcases hs : sort_by_tag (legs.filter (fun l => key_for l = k)) with _ | ⟨keep, ds⟩
    · have hp := sort_by_tag_perm (legs.filter (fun l => key_for l = k))
      rw [hs] at hp
      exact absurd hp.nil_eq.symm hne
    · simp
  · intro k hk l' hl' hkl' l hl hkl
    have hmem : l' ∈ (coalesce_modify_legs legs gk).1.filter (fun l => key_for l = k) :=
      List.mem_filter.mpr ⟨hl', by simp [hkl']⟩
    rw [coalesce_filter] at hmem
    simp only [group_out, if_pos hk] at hmem
    rcases hs : sort_by_tag (legs.filter (fun l => key_for l = k)) with _ | ⟨keep, ds⟩ <;>
      rw [hs] at hmem
    · cases hmem
    · simp only [List.mem_singleton] at hmem
      subst hmem
      have hlf : l ∈ sort_by_tag (legs.filter (fun l => key_for l = k)) :=
        (sort_by_tag_perm _).mem_iff.mpr (List.mem_filter.mpr ⟨hl, by simp [hkl]⟩)
      rw [hs] at hlf
      have hsorted := sort_by_tag_sorted (legs.filter (fun l => key_for l = k))
      rw [hs] at hsorted
      rcases List.mem_cons.mp hlf with rfl | hld
      · exact le_refl _
      · exact (List.sorted_cons.mp hsorted).1 l hld
  · intro k hk keep dropped hsort hdrop
    have hne : legs.filter (fun l => key_for l = k) ≠ [] := by
      intro hc
      rw [hc] at hsort
      exact List.noConfusion hsort
    have hlo : legs_of (group_legs legs) k ≠ [] := by
      rw [group_legs_legs_of]
      exact hne
    obtain ⟨arr, hmem⟩ := exists_group_of_legs_of hlo
    have harr : arr = legs.filter (fun l => key_for l = k) := by
      rw [← group_legs_legs_of legs k, legs_of_eq_of_mem (group_legs_nodup legs) hmem]
    rw [coalesce_spec]
    dsimp only
    apply mem_concat_map hmem
    simp only [group_events, if_pos hk, harr, hsort]
    rw [if_pos hdrop]
    exact List.mem_singleton.mpr rfl
  · intro k hk
    rw [coalesce_filter]
    simp only [group_out, if_neg hk]

/-- The three-leg example used for the C9 witness: two legs resolving to
`pos:5` (tags "b" and "a") and one tag-keyed leg. -/
def c9_legs : List Leg :=
  [{ leg_id := "L1", symbol := "XAUUSD", side := some Side.BUY, volume := 1,
     tag := some "b", position_ticket := some 5 },
   { leg_id := "L2", symbol := "XAUUSD", side := some Side.BUY, volume := 1,
     tag := some "a", position_ticket := some 5 },
   { leg_id := "L3", symbol := "XAUUSD", side := some Side.BUY, volume := 1,
     tag := some "c" }]

/-- Witness for C9 at a concrete duplicate-ticket input. -/
theorem claim_C9_witness :
    ((coalesce_modify_legs c9_legs "GK").1.filter (fun l => key_for l = "pos:5")
      = (sort_by_tag (c9_legs.filter (fun l => key_for l = "pos:5"))).take 1)
    ∧ ({ gk := "GK", ticket_key := "pos:5",
         kept := some "a", dropped := [some "b"] } : CoalesceEvent)
        ∈ (coalesce_modify_legs c9_legs "GK").2
    ∧ ((coalesce_modify_legs c9_legs "GK").1.filter (fun l => key_for l = "tag:c")
        = c9_legs.filter (fun l => key_for l = "tag:c")) := by
  refine ⟨?_, ?_, ?_⟩
  · exact (claim_C9 c9_legs "GK").1 "pos:5" (by with_unfolding_all decide)
      (by with_unfolding_all decide)
  · exact (claim_C9 c9_legs "GK").2.2.1 "pos:5" (by with_unfolding_all decide)
      { leg_id := "L2", symbol := "XAUUSD", side := some Side.BUY, volume := 1,
        tag := some "a", position_ticket := some 5 }
      [{ leg_id := "L1", symbol := "XAUUSD", side := some Side.BUY, volume := 1,
         tag := some "b", position_ticket := some 5 }]
      (by with_unfolding_all decide) (by with_unfolding_all decide)
  · exact (claim_C9 c9_legs "GK").2.2.2 "tag:c" (by with_unfolding_all decide)

/-! ## Edit-of-OPEN MODIFY builder (`build_modify_from_edit`) -/

/-- Embedding of `_resolve_symbol_for_pips(ps)`: `ParseSignal` has no `symbols` or `meta`
attribute, so only `ps.symbol` (truthy) and the default apply. -/
def resolve_symbol_for_pips (cfg : Config) (ps : ParseSignal) : String :=
  pyOrSD ps.symbol cfg.default_symbol

/-- Embedding of `build_modify_from_edit(ps, source_msg_id, legs_count)`. -/
def build_modify_from_edit (cfg : Config) (env : Env) (h : String → String)
    (dt : String) (ps : ParseSignal) (source_msg_id : String)
    (legs_count : Nat) : Except String (Option Action) :=
  match env.resolve_gk source_msg_id with
  | none => .ok none
  | some gk =>
    let legs_meta := env.list_open_legs gk
    if legs_meta = [] then .ok none
    else
      match plan_legs cfg ps legs_count with
      | .error msg => .error msg
      | .ok (planned_entries0, tp_list0, planned_size) =>
        let symbol_for_pips := resolve_symbol_for_pips cfg ps
        let has_open := ps.tps.any (· = none)
        let blk := tp_block_from_list ps.tps has_open
        let (planned_entries, tp_list) :=
          if planned_size = 16 ∧ planned_entries0 ≠ []
              ∧ planned_entries0.headD none ≠ none then
            (planned_entries0, ((List.replicate 4 blk).flatten).take planned_size)
          else if 8 ≤ planned_size ∧ planned_entries0 ≠ []
              ∧ planned_entries0.headD none ≠ none
              ∧ 4 < planned_entries0.length ∧ planned_entries0.getD 4 none ≠ none
              ∧ ¬ is_same_price (planned_entries0.headD none)
                  (planned_entries0.getD 4 none) symbol_for_pips then
            (planned_entries0, ((List.replicate 2 blk).flatten).take planned_size)
          else if planned_size = 4 then
            (planned_entries0, blk)
          else if ps.entries.length = 1 then
            (List.replicate 4 (some (ps.entries.headD 0)), tps_for_legs ps 4)
          else
            (legs_meta.map (·.entry), tps_for_legs ps legs_meta.length)
        let meta_symbol := base_symbol_of cfg legs_meta ps
        let client_id := client_id_for_message meta_symbol source_msg_id
        let legs := legs_meta.enum.map fun im =>
          let (i0, meta) := im
          let i := i0 + 1
          let leg_id := make_leg_id client_id i
          let tag := pyOrSD meta.leg_tag leg_id
          let entry_i := if i - 1 < planned_entries.length
            then planned_entries.getD (i - 1) none else meta.entry
          let new_sl := if ps.sl ≠ none then ps.sl else meta.sl
          let new_tp := if i - 1 < tp_list.length
            then tp_list.getD (i - 1) none else meta.tp
          { leg_id := leg_id
            symbol := meta.symbol.getD meta_symbol
            side := (meta.side).orElse fun _ => ps.side
            volume := pyOrQD meta.volume cfg.default_leg_volume
            entry := entry_i, sl := new_sl, tp := new_tp
            tag := some tag
            position_ticket := meta.position_ticket
            order_ticket := meta.order_ticket : Leg }
        -- pydantic raises ValidationError at the first `Leg(...)` whose
        -- `side=meta.get('side', ps.side)` is `None`: registry rows carry
        -- no `side` key and there is no `'BUY'` fallback here
        if legs.any fun l => l.side = none then
          .error "ValidationError: Leg.side"
        -- the extension loop passes `side=ps.side` into every new `Leg`
        else if legs_meta.length < planned_entries.length ∧ ps.side = none then
          .error "ValidationError: Leg.side"
        else
          let legs := legs ++
            (if legs_meta.length < planned_entries.length then
              (List.range' (legs_meta.length + 1)
                  (planned_entries.length - legs_meta.length)).map fun j =>
                { leg_id := make_leg_id client_id j
                  symbol := meta_symbol
                  side := ps.side
                  volume := cfg.default_leg_volume
                  entry := planned_entries.getD (j - 1) none
                  sl := ps.sl
                  tp := if j - 1 < tp_list.length then tp_list.getD (j - 1) none else none
                  tag := some ((if meta_symbol ≠ "" then meta_symbol
                      else cfg.default_symbol) ++ "#" ++ toString j) : Leg }
            else [])
          let legs := (coalesce_modify_legs legs gk).1
          .ok (some { action_id := make_action_id h dt "MODIFY" source_msg_id legs
                      type := "MODIFY", legs := legs
                      source_msg_id := some source_msg_id })

/-! ## The produced surface (`build_actions_from_message`) -/

inductive RouteKind where
  | MGMT
  | OPEN
  | NONE
deriving DecidableEq, Repr

/-- The intent → kind classification of `semantic_route`. -/
def route_kind (intent : Option String) : RouteKind :=
  if (intent.getD "").startsWith "MGMT" then RouteKind.MGMT
  else if (intent.getD "").toUpper = "OPEN" then RouteKind.OPEN
  else RouteKind.NONE

/-- Embedding of `MGMT_HANDLERS.get(intent)`. -/
def mgmt_handler (cfg : Config) (env : Env) (h : String → String) (dt : String)
    (intent : String) : Option (String → ParseSignal → String → Option Action) :=
  if intent = "MGMT_BREAK_EVEN" then
    some fun gk ps smid =>
      build_modify_action_from_gk cfg env h dt gk ps smid "MGMT_BREAK_EVEN"
  else if intent = "MGMT_RISK_FREE" then
    some fun gk ps smid =>
      build_modify_action_from_gk cfg env h dt gk ps smid "MGMT_RISK_FREE"
  else if intent = "MGMT_TP2_HIT" then
    some fun gk ps smid =>
      build_cancel_pending_action_from_gk cfg env h dt gk ps smid
  else none

/-- Embedding of `_validate_action(action)`: at least one leg, every leg with a truthy
symbol (volume is always set in the model, matching pydantic's `float`). -/
def validate_action (a : Action) : Bool :=
  a.legs ≠ [] && a.legs.all fun l => l.symbol ≠ ""

/-- Embedding of `_maybe_ack_ignore` (true only when the gate is enabled and an ignore
phrase matched). -/
def maybe_ack_ignore (cfg : Config) (env : Env) : Bool :=
  cfg.enable_ignore_gate && env.ignore_match

/-- Embedding of `_has_price_info(ps)`. -/
def has_price_info (ps : ParseSignal) : Bool :=
  ps.entries ≠ [] || ps.sl ≠ none || ps.tps.any (· ≠ none)

/-- Embedding of `_is_valid_signal(ps, raw, chat_id, sender_username)`. -/
def is_valid_signal (cfg : Config) (ps : ParseSignal) (raw : String)
    (chat_id : Option Int) (sender_username : Option String) : Bool :=
  if (pstrip raw.data).length < cfg.signal_min_text_len then false
  else if ps.side = none then false
  else if cfg.require_symbol && (pyTruthyS ps.symbol) = none then false
  else if cfg.require_price && ¬ has_price_info ps then false
  else if cfg.chat_id_whitelist ≠ [] && chat_id.isSome
      && ¬ cfg.chat_id_whitelist.contains (chat_id.getD 0) then false
  else if cfg.sender_whitelist ≠ [] && (pyTruthyS sender_username).isSome
      && ¬ cfg.sender_whitelist.contains ((sender_username.getD "").toLower) then
    false
  else true

/-- Embedding of `_reason_for_unparsed(ps, raw)`: the invalid range is checked first. -/
def reason_for_unparsed (ps : ParseSignal) (raw : String) : String :=
  if invalid_range_check ps then "INVALID_RANGE"
  else
    let text := pstrip raw.data
    let side_present := (find_side text).isSome
    let has_digits := text.any Char.isDigit
    let has_at := text.contains '@'
    if side_present && has_digits && ¬ has_at then "MISSING_AT" else "NO_MATCH"

/-- The `_report_unparsed` side channel: a reason is delivered only when
both the reporter and the raw message object were provided. -/
def py_report (env : Env) (raw_msg : Option RawMsg) (r : String) : Option String :=
  if env.reporter_present && raw_msg.isSome then some r else none

/-- The valid-signal gate and OPEN build at the end of
`build_actions_from_message` (factored out of the single source function;
reached both after an invalid edit-MODIFY and on the plain path). -/
def open_signal_tail (cfg : Config) (env : Env) (h : String → String)
    (dt : String) (ps : ParseSignal) (source_msg_id text : String)
    (is_edit : Bool) (legs_count : Nat) (leg_volume : ℚ)
    (raw_msg : Option RawMsg) : Except String (List Action × Option String) :=
  let chat_id := raw_msg.bind (·.chat_id)
  let sender_username := raw_msg.bind (·.sender_username)
  if ¬ is_valid_signal cfg ps text chat_id sender_username
      ∧ ¬ (is_edit = true ∧ ps.side ≠ none) then
    .ok ([], if cfg.failsafe_on_unparsed then
      py_report env raw_msg (reason_for_unparsed ps text) else none)
  else
    match build_open_action cfg h dt ps source_msg_id legs_count leg_volume with
    | .error msg => .error msg
    | .ok open_action =>
      if ¬ validate_action open_action then .ok ([], none)
      else .ok ([open_action], none)

/-- Embedding of `build_actions_from_message(source_msg_id, text, is_edit, legs_count,
leg_volume, ..., reply_to_msg_id)`. Returns the emitted actions and, as a
side channel, the reason passed to the unparsed reporter (if any). -/
def build_actions_from_message (cfg : Config) (env : Env) (h : String → String)
    (dt : String) (source_msg_id text : String) (is_edit : Bool)
    (legs_count : Nat) (leg_volume : ℚ) (raw_msg : Option RawMsg)
    (reply_to_msg_id : Option String) :
    Except String (List Action × Option String) :=
  if maybe_ack_ignore cfg env then .ok ([], none)
  else
    let legs_count := clamp_legs_count cfg legs_count
    let ps := parse_signal_text text
    let kind := route_kind env.sem_intent
    -- early range gate for dual-price entries (checked before every other
    -- gate)
    if invalid_range_check ps then
      .ok ([], if cfg.failsafe_on_unparsed then
        py_report env raw_msg "INVALID_RANGE" else none)
    else
      let has_side := (find_side text.data).isSome
      let has_at := text.data.contains '@'
      let missing_entries := ps.entries = []
      if kind ≠ RouteKind.MGMT ∧ cfg.require_price = true
          ∧ (missing_entries ∨ (has_side = true ∧ has_at = false)) then
        .ok ([], if cfg.failsafe_on_unparsed then
          py_report env raw_msg
            (if has_side = true ∧ has_at = false then "MISSING_AT" else "NO_PRICE")
          else none)
      else if kind = RouteKind.MGMT then
        match pyTruthyS (pyOrS reply_to_msg_id (raw_msg.bind (·.reply_to_msg_id))) with
        | none => .ok ([], py_report env raw_msg "MGMT_NO_QUOTED")
        | some quoted =>
          match env.resolve_gk quoted with
          | none => .ok ([], py_report env raw_msg "MGMT_NO_GK")
          | some gk =>
            match mgmt_handler cfg env h dt ((env.sem_intent).getD "") with
            | none => .ok ([], py_report env raw_msg "MGMT_NO_HANDLER")
            | some handler =>
              match handler gk ps source_msg_id with
              | some act =>
                if validate_action act then .ok ([act], none) else .ok ([], none)
              | none => .ok ([], none)
      else
        match (if is_edit then
            build_modify_from_edit cfg env h dt ps source_msg_id legs_count
          else .ok none) with
        | .error msg => .error msg
        | .ok (some act) =>
          if validate_action act then .ok ([act], none)
          else open_signal_tail cfg env h dt ps source_msg_id text is_edit
            legs_count leg_volume raw_msg
        | .ok none =>
          open_signal_tail cfg env h dt ps source_msg_id text is_edit
            legs_count leg_volume raw_msg

/-! ## Claims C4, C6, C7 -/

/-- Claim C4. Idempotency: with the wall clock made explicit as the coarse
timestamp `dt`, `build_actions_from_message` on identical inputs gives
identical results (identical `action_id`s and leg contents); and the
`action_id` is a pure function of `(type, source_msg_id, leg contents)`
together with `dt` — leg lists with equal content projections give equal
ids. -/
theorem claim_C4 (cfg : Config) (env : Env) (h : String → String) (dt : String)
    (source_msg_id text : String) (is_edit : Bool) (legs_count : Nat)
    (leg_volume : ℚ) (raw_msg : Option RawMsg) (reply : Option String) :
    (build_actions_from_message cfg env h dt source_msg_id text is_edit
        legs_count leg_volume raw_msg reply
      = build_actions_from_message cfg env h dt source_msg_id text is_edit
        legs_count leg_volume raw_msg reply)
    ∧ (∀ t smid : String, ∀ legs legs' : List Leg,
        legs.map leg_content = legs'.map leg_content →
        make_action_id h dt t smid legs = make_action_id h dt t smid legs') := by
  refine ⟨rfl, ?_⟩
  intro t smid legs legs' hcontent
  unfold make_action_id make_action_blob
  have : legs.map enc_leg_content = legs'.map enc_leg_content := by
    have h1 : legs.map enc_leg_content = (legs.map leg_content).map enc_content := by
      rw [List.map_map]
      rfl
    have h2 : legs'.map enc_leg_content = (legs'.map leg_content).map enc_content := by
      rw [List.map_map]
      rfl
    rw [h1, h2, hcontent]
  rw [this]

/-- Witness for C4: two one-leg lists differing only in volume and tag have
equal content projections, hence equal action ids. -/
theorem claim_C4_witness :
    make_action_id (fun s => s) "20250101-000000" "OPEN" "42"
        [{ leg_id := "X_42#1", symbol := "XAUUSD", side := some Side.BUY,
           volume := 1, tag := some "a" }]
      = make_action_id (fun s => s) "20250101-000000" "OPEN" "42"
        [{ leg_id := "X_42#1", symbol := "XAUUSD", side := some Side.BUY,
           volume := 2, tag := some "b" }] :=
  (claim_C4 defaultConfig {} (fun s => s) "20250101-000000" "42" "" false 5 1
    none none).2 "OPEN" "42" _ _ rfl

/-- Claim C6. Rejection precedence: whenever the parsed side is present and the
two entries violate the range-direction invariant, the message is rejected
with reason `INVALID_RANGE`, whatever the semantic route, reply ids,
registry contents or other gate conditions — the gate runs first. -/
theorem claim_C6 (cfg : Config) (env : Env) (h : String → String) (dt : String)
    (smid text : String) (is_edit : Bool) (lc : Nat) (lv : ℚ) (rm : RawMsg)
    (reply : Option String)
    (hgate : cfg.enable_ignore_gate = false)
    (hfail : cfg.failsafe_on_unparsed = true)
    (hrep : env.reporter_present = true)
    (hinv : invalid_range_check (parse_signal_text text) = true) :
    build_actions_from_message cfg env h dt smid text is_edit lc lv (some rm) reply
      = .ok ([], some "INVALID_RANGE") := by
  unfold build_actions_from_message
  rw [show maybe_ack_ignore cfg env = false by
    simp [maybe_ack_ignore, hgate]]
  simp only [Bool.false_eq_true, if_false]
  rw [if_pos hinv, hfail]
  simp [py_report, hrep]

/-- Witness for C6: a SELL range written high/low is rejected as
`INVALID_RANGE` (here it would also fail the semantic/no-rule gate). -/
theorem claim_C6_witness :
    build_actions_from_message defaultConfig { reporter_present := true }
        (fun s => s) "TS" "9" "SELL @ 3354/3350\nSL 3360" false 5 (1/100)
        (some {}) none
      = .ok ([], some "INVALID_RANGE") :=
  claim_C6 defaultConfig { reporter_present := true } (fun s => s) "TS" "9"
    "SELL @ 3354/3350\nSL 3360" false 5 (1/100) {} none rfl rfl rfl
    (by with_unfolding_all decide)

/-- Helper: the entry planner succeeds whenever the invalid-range condition
does not hold. -/
theorem plan_entries_ok (ps : ParseSignal) (n : Nat)
    (hinv : invalid_range_check ps = false) :
    ∃ v, plan_entries ps n = .ok v := by
  rcases hent : ps.entries with _ | ⟨e0, rest0⟩
  · simp only [plan_entries, hent]
    exact ⟨_, rfl⟩
  · rcases rest0 with _ | ⟨e1, rest⟩
    · simp only [plan_entries, hent]
      exact ⟨_, rfl⟩
    · rcases hside : ps.side with _ | s
      · simp only [plan_entries, validate_range, hent, hside]
        exact ⟨_, rfl⟩
      · cases s
        · have hab : ¬ (e0 ≤ e1) := by
            simp [invalid_range_check, hent, hside] at hinv
            exact not_le.mpr hinv
          simp only [plan_entries, validate_range, hent, hside]
          rw [if_neg hab]
          exact ⟨_, rfl⟩
        · have hab : ¬ (e1 ≤ e0) := by
            simp [invalid_range_check, hent, hside] at hinv
            exact not_le.mpr hinv
          simp only [plan_entries, validate_range, hent, hside]
          rw [if_neg hab]
          exact ⟨_, rfl⟩

theorem plan_legs_ok (cfg : Config) (ps : ParseSignal) (n : Nat)
    (hinv : invalid_range_check ps = false) :
    ∃ v, plan_legs cfg ps n = .ok v := by
  obtain ⟨v, hv⟩ := plan_entries_ok ps n hinv
  unfold plan_legs
  rw [hv]
  obtain ⟨entries, effective⟩ := v
  exact ⟨_, rfl⟩

theorem build_open_action_ok (cfg : Config) (h : String → String) (dt : String)
    (ps : ParseSignal) (smid : String) (n : Nat) (lv : ℚ)
    (hinv : invalid_range_check ps = false) (hside : ps.side ≠ none) :
    ∃ a, build_open_action cfg h dt ps smid n lv = .ok a := by
  obtain ⟨⟨entries, tps, effective⟩, hv⟩ := plan_legs_ok cfg ps n hinv
  unfold build_open_action
  rw [hv]
  dsimp only
  rw [if_neg (fun hc => hside hc.2)]
  exact ⟨_, rfl⟩

/-- Helper: a valid signal always has a parsed side (second check of
`_is_valid_signal`). -/
theorem is_valid_signal_side (cfg : Config) (ps : ParseSignal) (raw : String)
    (c : Option Int) (s : Option String)
    (hval : is_valid_signal cfg ps raw c s = true) : ps.side ≠ none := by
  intro hnone
  simp [is_valid_signal, hnone] at hval

theorem open_signal_tail_ok (cfg : Config) (env : Env) (h : String → String)
    (dt : String) (ps : ParseSignal) (smid text : String) (is_edit : Bool)
    (n : Nat) (lv : ℚ) (raw_msg : Option RawMsg)
    (hinv : invalid_range_check ps = false) :
    ∃ out, open_signal_tail cfg env h dt ps smid text is_edit n lv raw_msg
      = .ok out := by
  unfold open_signal_tail
  dsimp only
  by_cases hrej : (¬ is_valid_signal cfg ps text (raw_msg.bind fun x => x.chat_id)
      (raw_msg.bind fun x => x.sender_username) = true
    ∧ ¬ (is_edit = true ∧ ps.side ≠ none))
  · rw [if_pos hrej]
    exact ⟨_, rfl⟩
  · rw [if_neg hrej]
    have hside : ps.side ≠ none := by
      rcases not_and_or.mp hrej with hv | he
      · exact is_valid_signal_side cfg ps text _ _ (by simpa using not_not.mp hv)
      · exact (not_not.mp he).2
    obtain ⟨a, ha⟩ := build_open_action_ok cfg h dt ps smid n lv hinv hside
    rw [ha]
    dsimp only
    by_cases hval : validate_action a = true
    · rw [if_neg (not_not_intro hval)]
      exact ⟨_, rfl⟩
    · rw [if_pos hval]
      exact ⟨_, rfl⟩

/-- Helper: the no-escape contract does hold away from the edit path — with
`is_edit = false`, `build_actions_from_message` always returns `.ok` (the
planner's domain error is fenced off by the early range gate, and every
`Leg` the OPEN builder constructs carries the validated parsed side). -/
theorem no_raise_when_not_edit (cfg : Config) (env : Env) (h : String → String)
    (dt : String) (smid text : String) (lc : Nat) (lv : ℚ)
    (raw_msg : Option RawMsg) (reply : Option String) :
    ∃ out, build_actions_from_message cfg env h dt smid text false lc lv
      raw_msg reply = .ok out := by
  unfold build_actions_from_message
  by_cases hig : maybe_ack_ignore cfg env = true
  · rw [if_pos hig]
    exact ⟨_, rfl⟩
  · rw [if_neg hig]
    dsimp only
    by_cases hinv : invalid_range_check (parse_signal_text text) = true
    · rw [if_pos hinv]
      exact ⟨_, rfl⟩
    · rw [if_neg hinv]
      have hinv' : invalid_range_check (parse_signal_text text) = false := by
        simpa using hinv
      split
      · exact ⟨_, rfl⟩
      · split
        · -- MGMT branch: every leaf is a pure `.ok`
          rcases pyTruthyS (pyOrS reply (raw_msg.bind (·.reply_to_msg_id))) with _ | q
          · exact ⟨_, rfl⟩
          · dsimp only
            rcases env.resolve_gk q with _ | gk
            · exact ⟨_, rfl⟩
            · dsimp only
              rcases mgmt_handler cfg env h dt ((env.sem_intent).getD "") with _ | handler
              · exact ⟨_, rfl⟩
              · dsimp only
                rcases handler gk (parse_signal_text text) smid with _ | act
                · exact ⟨_, rfl⟩
                · dsimp only
                  by_cases hval : validate_action act = true
                  · rw [if_pos hval]
                    exact ⟨_, rfl⟩
                  · rw [if_neg hval]
                    exact ⟨_, rfl⟩
        · -- plain open path (`is_edit = false`)
          exact open_signal_tail_ok cfg env h dt (parse_signal_text text)
            smid text false (clamp_legs_count cfg lc) lv raw_msg hinv'

/-- The registry state of the C7 failing input: the edited message resolves
to a recorded OPEN group with one persisted row; `record_open` (line 611 of
`processing.py`) never stores a `side` key, so the row has none. -/
def c7env : Env :=
  { resolve_gk := fun _ => some "GK", list_open_legs := fun _ => [{}] }

/-- The C7 failing configuration: `SIGNAL_REQUIRE_PRICE=false` (all other
settings default). -/
def c7cfg : Config := { require_price := false }

/-- Claim C7 fails on the code: the spec says no exception ever escapes
`build_actions_from_message`, but on an edited message whose new text has
no BUY/SELL keyword (`ps.side = None`), with `SIGNAL_REQUIRE_PRICE=false`
and the message recorded as an OPEN, `build_modify_from_edit` passes
`side=meta.get('side', ps.side) = None` into `Leg`, whose required pydantic
field `side : Literal["BUY","SELL"]` raises `ValidationError` — uncaught at
the call site. The embedding exhibits the escape on the concrete input. -/
theorem claim_C7 :
    build_actions_from_message c7cfg c7env (fun s => s) "TS" "7"
        "SL 3349" true 5 (1/100) (some {}) none
      = .error "ValidationError: Leg.side" := by
  with_unfolding_all rfl

end TGtoMT5